import Mathlib

/-!
Verification of the exclusivity-conflict compiler
(`edb/edgeql/compiler/conflicts.py`).

The Python module is embedded shallowly: the query-language AST
fragments the compiler manipulates become the inductive type `QlExpr`,
the schema objects (object types, pointers, constraints) become plain
records looked up through a `Schema` value, and each Python function of
the module becomes a Lean function of the same name.  Fallible steps
(schema lookups that would raise, `assert` statements, user errors)
return `Except CErr`.  External collaborators that the module merely
calls into (expression compilation, volatility inference, the
`qlutils` substitution helpers) are modelled as parameters of the
environment or, where the spec fixes their meaning, as definitions
marked "Modelled from the spec".
-/

/-- Surface/compiled expression trees, covering exactly the node shapes
`conflicts.py` builds or inspects: the `__subject__` placeholder and
`__subject__.ptr` references found in constraint subject expressions,
the partial path `.ptr` (`qlast.Path(partial=True, ...)`), a path rooted
at an object type name, path extension (`setgen.extend_path`), the
opaque reference returned by `ctx.create_anchor` (carrying the anchored
value), the empty-set cast `<T>{}` used as a default anchor, binary
operations, the one-argument `any(...)` disjunction over a set of
conditions, the detached conflict select, the compiled detached subject
path used as an update overlay, and opaque literal values standing for
arbitrary compiled shape expressions. -/
inductive QlExpr : Type where
  | subjRef
  | subjPath (pn : String)
  | ppath (pn : String)
  | objPath (tn : String)
  | pstep (base : QlExpr) (pn : String)
  | anchorRef (pn : String) (val : QlExpr)
  | emptyCast (tid : Nat)
  | binOp (op : String) (l r : QlExpr)
  | anyOf (es : List QlExpr)
  | detachedSelect (res : QlExpr) (cond : QlExpr)
  | detachedPath (tn : String)
  | lit (n : Nat)
deriving Repr

mutual

/-- Modelled from the spec: `qlutils.subject_substitute` (the module
`edb/edgeql/utils.py` is not part of the sources).  "Substitute a named
subject placeholder ... into a surface-syntax expression tree,
returning a new tree": every occurrence of the `__subject__`
placeholder in `se` is replaced by `repl`; a `__subject__.p` reference
becomes the path `repl.p`.  Anchor references are opaque and are left
untouched. -/
def subject_substitute (se : QlExpr) (repl : QlExpr) : QlExpr :=
  match se with
  | .subjRef => repl
  | .subjPath pn => .pstep repl pn
  | .pstep b pn => .pstep (subject_substitute b repl) pn
  | .binOp op l r => .binOp op (subject_substitute l repl) (subject_substitute r repl)
  | .anyOf es => .anyOf (subject_substitute_list es repl)
  | .detachedSelect r c =>
      .detachedSelect (subject_substitute r repl) (subject_substitute c repl)
  | e => e

def subject_substitute_list (es : List QlExpr) (repl : QlExpr) : List QlExpr :=
  match es with
  | [] => []
  | e :: rest => subject_substitute e repl :: subject_substitute_list rest repl

end

/-- Association-list lookup (first match wins), modelling a Python
dict read. -/
def alookup {α β : Type} [DecidableEq α] (xs : List (α × β)) (k : α) : Option β :=
  match xs with
  | [] => none
  | (k', v) :: rest => if k' = k then some v else alookup rest k

mutual

/-- Modelled from the spec: `qlutils.subject_paths_substitute`
(`edb/edgeql/utils.py` is not part of the sources).  Substitutes "a map
of named anchors" into an expression tree: every `__subject__.p`
reference with an entry in the anchor map is replaced by that anchor; a
name missing from the map is left in place.  Anchor references are
opaque and are left untouched. -/
def subject_paths_substitute (se : QlExpr) (anchors : List (String × QlExpr)) : QlExpr :=
  match se with
  | .subjPath pn =>
      match alookup anchors pn with
      | some a => a
      | none => .subjPath pn
  | .pstep b pn => .pstep (subject_paths_substitute b anchors) pn
  | .binOp op l r =>
      .binOp op (subject_paths_substitute l anchors) (subject_paths_substitute r anchors)
  | .anyOf es => .anyOf (subject_paths_substitute_list es anchors)
  | .detachedSelect r c =>
      .detachedSelect (subject_paths_substitute r anchors) (subject_paths_substitute c anchors)
  | e => e

def subject_paths_substitute_list (es : List QlExpr) (anchors : List (String × QlExpr)) :
    List QlExpr :=
  match es with
  | [] => []
  | e :: rest => subject_paths_substitute e anchors :: subject_paths_substitute_list rest anchors

end

mutual

/-- Modelled from the spec: `qlutils.find_subject_ptrs`
(`edb/edgeql/utils.py` is not part of the sources).  Collects, for a
constraint subject expression, "every pointer it references" through
the `__subject__` placeholder.  The Python function returns a set; here
a list with possible repetitions is returned and all call sites
deduplicate while inserting. -/
def find_subject_ptrs (se : QlExpr) : List String :=
  match se with
  | .subjPath pn => [pn]
  | .pstep b _ => find_subject_ptrs b
  | .binOp _ l r => find_subject_ptrs l ++ find_subject_ptrs r
  | .anyOf es => find_subject_ptrs_list es
  | .detachedSelect r c => find_subject_ptrs r ++ find_subject_ptrs c
  | _ => []

def find_subject_ptrs_list (es : List QlExpr) : List String :=
  match es with
  | [] => []
  | e :: rest => find_subject_ptrs e ++ find_subject_ptrs_list rest

end

/-- Pointer cardinality, as far as this module consumes it
(`get_cardinality(...).is_single()`). -/
inductive Card : Type where
  | one
  | many
deriving Repr, DecidableEq

def Card.isSingle : Card → Bool
  | .one => true
  | .many => false

/-- A schema pointer: its source object type (by id), its short name,
cardinality, declared target type (by id) and, for computed pointers,
the defining expression (`ptr.get_expr`).  Constraints attached to a
pointer are looked up through the schema, mirroring
`ptr.get_constraints(schema)`. -/
structure Pointer : Type where
  source : Nat
  pname : String
  card : Card
  target : Nat
  compExpr : Option QlExpr
deriving Repr

/-- The subject a constraint is declared on: a pointer or an object
type (`constr.get_subject(schema)`). -/
inductive CSubject : Type where
  | ptrS (p : Pointer)
  | objS (tid : Nat)
deriving Repr

/-- A schema constraint, carrying exactly the fields `conflicts.py`
reads: a stable id, whether it is a subclass of `std::exclusive`, the
`generic`, `delegated` and `owned` flags, the full ancestor-constraint
chain (`get_ancestors(...).objects(...)`, nearest first), the subject,
and the optional subject expression. -/
inductive Constraint : Type where
  | mk (cid : Nat) (isExclusive : Bool) (generic : Bool) (delegated : Bool)
      (owned : Bool) (ancestors : List Constraint) (subject : CSubject)
      (subjectexpr : Option QlExpr)
deriving Repr

def Constraint.cid : Constraint → Nat
  | .mk i _ _ _ _ _ _ _ => i

def Constraint.isExclusive : Constraint → Bool
  | .mk _ e _ _ _ _ _ _ => e

def Constraint.generic : Constraint → Bool
  | .mk _ _ g _ _ _ _ _ => g

def Constraint.delegated : Constraint → Bool
  | .mk _ _ _ d _ _ _ _ => d

def Constraint.owned : Constraint → Bool
  | .mk _ _ _ _ o _ _ _ => o

def Constraint.ancestors : Constraint → List Constraint
  | .mk _ _ _ _ _ a _ _ => a

def Constraint.subject : Constraint → CSubject
  | .mk _ _ _ _ _ _ s _ => s

def Constraint.subjectexpr : Constraint → Option QlExpr
  | .mk _ _ _ _ _ _ _ se => se

/-- One object type of the schema snapshot: id, display name, view
flag, its pointers, its object-level constraints, its direct children
and all descendants (both by id). -/
structure ObjTypeInfo : Type where
  tid : Nat
  oname : String
  isViewT : Bool
  pointers : List Pointer
  constraintsT : List Constraint
  childrenT : List Nat
  descendantsT : List Nat
deriving Repr

/-- The immutable-during-compilation schema snapshot, together with the
schema accessors this module consumes from collaborators (nearest
non-derived parent of a pointer or type, nearest-common-ancestor
computation, the `std::BaseObject` root, and per-pointer constraint
lists). -/
structure Schema : Type where
  types : List ObjTypeInfo
  ptrConstraints : Pointer → List Constraint
  nndParentPtr : Pointer → Pointer
  nndParentType : Nat → Nat
  commonAncestors : Nat → Nat → List Nat
  baseObject : Nat

def Schema.findType (s : Schema) (t : Nat) : Option ObjTypeInfo :=
  s.types.find? (fun i => i.tid == t)

/-- `subject_typ.getptr(schema, name)`: pointer lookup by short name on
an object type. -/
def Schema.getptr (s : Schema) (t : Nat) (pn : String) : Option Pointer :=
  match s.findType t with
  | some i => i.pointers.find? (fun p => p.pname == pn)
  | none => none

def Schema.typeName (s : Schema) (t : Nat) : String :=
  match s.findType t with
  | some i => i.oname
  | none => ""

def Schema.isView (s : Schema) (t : Nat) : Bool :=
  match s.findType t with
  | some i => i.isViewT
  | none => false

def Schema.children (s : Schema) (t : Nat) : List Nat :=
  match s.findType t with
  | some i => i.childrenT
  | none => []

def Schema.descendants (s : Schema) (t : Nat) : List Nat :=
  match s.findType t with
  | some i => i.descendantsT
  | none => []

def Schema.typeConstraints (s : Schema) (t : Nat) : List Constraint :=
  match s.findType t with
  | some i => i.constraintsT
  | none => []

def Schema.typePointers (s : Schema) (t : Nat) : List Pointer :=
  match s.findType t with
  | some i => i.pointers
  | none => []

/-- Errors this module can signal: user query errors and
unsupported-feature errors (each carrying the source message), plus
the conditions that in Python would escape as exceptions from
collaborators — a failed schema lookup, a failed internal `assert`,
and exhaustion of the (always sufficient) fuel of the pointer-closure
worklist. -/
inductive CErr : Type where
  | queryError (msg : String)
  | unsupported (msg : String)
  | lookupFail
  | assertFail
  | fuelOut
deriving Repr, DecidableEq

/-- A mutating statement in intermediate form, reduced to the data this
module reads from it: whether it is an update, the shape — the ordered
(pointer short name, value expression) entries of
`stmt.subject.shape` — the object type of its subject set, and a
stable id standing for the identity of the IR node (used when
statements are collected in `dml_stmts` sets). -/
structure MutStmt : Type where
  isUpdate : Bool
  shape : List (String × QlExpr)
  subjectTid : Nat
  sid : Nat
deriving Repr

/-- The ambient compilation context: the schema snapshot, the
volatility inference supplied by a collaborator
(`inference.infer_volatility(...).is_volatile()`), and the append-only
list of already-compiled mutation statements (`ctx.env.dml_stmts`). -/
structure Env : Type where
  schema : Schema
  isVolatile : QlExpr → Bool
  dmlStmts : List MutStmt

/-- Python dict assignment `d[k] = v`: overwrite in place if the key
exists, otherwise append (insertion order preserved). -/
def aset {α β : Type} [DecidableEq α] (k : α) (v : β) : List (α × β) → List (α × β)
  | [] => [(k, v)]
  | (k', v') :: rest => if k' = k then (k, v) :: rest else (k', v') :: aset k v rest

/-- Python `d.setdefault(k, dflt)` followed by an in-place update `f` of
the entry at `k`. -/
def alistSetD {α β : Type} [DecidableEq α] (k : α) (dflt : β) (f : β → β) :
    List (α × β) → List (α × β)
  | [] => [(k, f dflt)]
  | (k', v) :: rest =>
      if k' = k then (k', f v) :: rest else (k', v) :: alistSetD k dflt f rest

/-- Insert into a Python set modelled as a duplicate-free list kept in
insertion order. -/
def dedupInsert (xs : List String) (x : String) : List String :=
  if x ∈ xs then xs else xs ++ [x]

def dedupAppend (xs ys : List String) : List String :=
  ys.foldl dedupInsert xs

/-- `_constr_matters` (conflicts.py:219-231): a constraint matters iff
it is not generic, not delegated, and either owned at its level or all
of its ancestor constraints are delegated-or-generic. -/
def _constr_matters (c : Constraint) : Bool :=
  !c.generic && !c.delegated &&
    (c.owned || c.ancestors.all (fun anc => anc.delegated || anc.generic))

/-- `PointerConstraintMap`: pointer short name to (pointer, constraint
list), a dict in Python, an insertion-ordered association list here. -/
abbrev PtrConstraintMap := List (String × Pointer × List Constraint)

abbrev ConstraintPair := PtrConstraintMap × List Constraint

/-- `ConflictTypeMap`: declaring object type (by id) to the constraints
bucketed under it. -/
abbrev ConflictTypeMap := List (Nat × ConstraintPair)

/-- The chain `(constr,) + constr.get_ancestors(schema).objects(schema)`
walked by `_split_constraints`. -/
def constrChain (c : Constraint) : List Constraint :=
  c :: c.ancestors

/-- One step of the pointer-constraint bucketing in
`_split_constraints` (conflicts.py:252-264): if the chain element
matters, find its subject pointer (the Python code asserts it is a
pointer) and append it under (declaring type, pointer name). -/
def splitPtrStep (pn : String) (tm : ConflictTypeMap) (anc : Constraint) :
    Except CErr ConflictTypeMap :=
  if _constr_matters anc then
    match anc.subject with
    | .ptrS p =>
        .ok (alistSetD p.source ([], [])
          (fun pr => (alistSetD pn (p, []) (fun q => (q.1, q.2 ++ [anc])) pr.1, pr.2)) tm)
    | .objS _ => .error .assertFail
  else .ok tm

/-- One step of the object-constraint bucketing in `_split_constraints`
(conflicts.py:267-275): if the chain element matters, its subject must
be an object type, and it is appended under that type. -/
def splitObjStep (tm : ConflictTypeMap) (anc : Constraint) : Except CErr ConflictTypeMap :=
  if _constr_matters anc then
    match anc.subject with
    | .objS t => .ok (alistSetD t ([], []) (fun pr => (pr.1, pr.2 ++ [anc])) tm)
    | .ptrS _ => .error .assertFail
  else .ok tm

/-- `_split_constraints` (conflicts.py:242-277): walk every pointer
constraint and every object constraint together with its full ancestor
chain, keep the chain elements that matter, and bucket each under the
object type declaring its subject. -/
def _split_constraints (obj_constrs : List Constraint) (constrs : PtrConstraintMap) :
    Except CErr ConflictTypeMap := do
  let tm1 ← constrs.foldlM
    (fun tm entry =>
      entry.2.2.foldlM
        (fun tm pc => (constrChain pc).foldlM (splitPtrStep entry.1) tm)
        tm)
    ([] : ConflictTypeMap)
  obj_constrs.foldlM (fun tm oc => (constrChain oc).foldlM splitObjStep tm) tm1

/-- conflicts.py:67-72: the pointers the constraints need — the keys of
`constrs` plus, for every object constraint, the pointers referenced by
its subject expression (whose absence trips the Python `assert`). -/
def neededPtrs0 (obj_constrs : List Constraint) (constrs : PtrConstraintMap) :
    Except CErr (List String) :=
  obj_constrs.foldlM
    (fun acc c =>
      match c.subjectexpr with
      | none => .error .assertFail
      | some se => .ok (dedupAppend acc (find_subject_ptrs se)))
    ((constrs.map (fun e => e.1)).foldl dedupInsert [])

/-- conflicts.py:82-85: append a referenced pointer to the worklist and
the needed set when it is not yet needed. -/
def closExpand (acc : List String × List String) (r : String) :
    List String × List String :=
  if r ∈ acc.2 then acc else (acc.1 ++ [r], acc.2 ++ [r])

/-- conflicts.py:74-85: the worklist loop that anchors computed
pointers to their defining expression and expands the needed set with
the pointers that expression references, to a fixed point.  The Python
loop pops from the back of the worklist; the front is popped here —
the loop's results (the anchor map and the needed set) do not depend
on the traversal order.  `fuel` bounds the number of iterations; the
wrapper passes a bound that the loop can never exhaust (each iteration
pops one name and every name enters the worklist at most once). -/
def ptrClosure (s : Schema) (t : Nat) :
    Nat → List String → List String → List (String × QlExpr) →
    Except CErr (List String × List (String × QlExpr))
  | _, [], needed, anchors => .ok (needed, anchors)
  | 0, _ :: _, _, _ => .error .fuelOut
  | fuel + 1, p :: wl, needed, anchors =>
    match s.getptr t p with
    | none => .error .lookupFail
    | some ptr =>
      match ptr.compExpr with
      | none => ptrClosure s t fuel wl needed anchors
      | some e =>
        let st := (find_subject_ptrs e).foldl closExpand (wl, needed)
        ptrClosure s t fuel st.1 st.2 (anchors ++ [(p, e)])

/-- A worklist bound that `ptrClosure` can never exhaust: the initial
worklist length plus the total number of pointer references inside the
computed-pointer expressions of the subject type. -/
def closureFuel (s : Schema) (t : Nat) (needed : List String) : Nat :=
  needed.length +
    ((s.typePointers t).map
      (fun p =>
        match p.compExpr with
        | some e => (find_subject_ptrs e).length
        | none => 0)).sum

/-- The loop body of conflicts.py:92-96: look up each pointer and
anchor it to a path extended off the fake DML set. -/
def fakeFold (s : Schema) (t : Nat) (f : QlExpr) :
    List String → List (String × QlExpr) → Except CErr (List (String × QlExpr))
  | [], anchors => .ok anchors
  | p :: rest, anchors =>
    match s.getptr t p with
    | none => .error .lookupFail
    | some _ => fakeFold s t f rest (aset p (QlExpr.anchorRef p (.pstep f p)) anchors)

/-- conflicts.py:89-96: when a `fake_dml_set` directly represents the
result of our DML, every needed pointer (and `id`) is anchored to a
path extended off that set instead. -/
def fakeAnchors (s : Schema) (t : Nat) (fake : Option QlExpr) (needed : List String)
    (anchors : List (String × QlExpr)) : Except CErr (List (String × QlExpr)) :=
  match fake with
  | none => .ok anchors
  | some f => fakeFold s t f (dedupInsert needed ("id")) anchors

/-- The two volatility error messages of conflicts.py:108-118: one for
the inheritance-check origin, one for the conflict-on clause origin. -/
def volMsg (for_inheritance : Bool) : String :=
  if for_inheritance then
    "INSERT does not support volatile properties with exclusive constraints when another statement in the same query modifies a related type"
  else
    "INSERT UNLESS CONFLICT ON does not support volatile properties"

/-- conflicts.py:100-126: walk the statement shape, collecting every
shape pointer name into `ptrs_in_shape` and anchoring each needed,
not-yet-anchored pointer to its shape expression — unless that
expression is volatile, which is rejected with an origin-dependent
unsupported-feature error. -/
def shapeLoop (env : Env) (for_inheritance : Bool) (needed : List String) :
    List (String × QlExpr) → List (String × QlExpr) → List String →
    Except CErr (List (String × QlExpr) × List String)
  | [], anchors, inShape => .ok (anchors, inShape)
  | (n, e) :: rest, anchors, inShape =>
    let inShape' := dedupInsert inShape n
    if needed.contains n && (alookup anchors n).isNone then
      if env.isVolatile e then .error (.unsupported (volMsg for_inheritance))
      else shapeLoop env for_inheritance needed rest
        (anchors ++ [(n, QlExpr.anchorRef n e)]) inShape'
    else shapeLoop env for_inheritance needed rest anchors inShape'

/-- conflicts.py:131-139: fill in empty-set casts, typed by the
pointer's declared target, for pointers that are needed but have no
anchor yet (the `present_ptrs` snapshot is taken before the filling
starts; the Python code asserts the target exists — `Pointer.target`
is total here). -/
def fillFold (s : Schema) (t : Nat) :
    List String → List (String × QlExpr) → Except CErr (List (String × QlExpr))
  | [], anchors => .ok anchors
  | p :: rest, anchors =>
    match s.getptr t p with
    | none => .error .lookupFail
    | some ptr => fillFold s t rest (anchors ++ [(p, QlExpr.emptyCast ptr.target)])

/-- conflicts.py:131-139 as a whole: `fillFold` over the needed
pointers whose anchor is still absent. -/
def fillEmpty (s : Schema) (t : Nat) (needed : List String)
    (anchors : List (String × QlExpr)) : Except CErr (List (String × QlExpr)) :=
  fillFold s t (needed.filter (fun p => (alookup anchors p).isNone)) anchors

/-- The anchor-resolution part of `_compile_conflict_select`
(conflicts.py:67-139), composed from its stages.  Returns `none` for
the for-inheritance short-circuit (conflicts.py:128-129), otherwise the
needed pointers, the `present_ptrs` snapshot and the completed anchor
map. -/
def resolveAnchors (env : Env) (stmt : MutStmt) (subject_typ : Nat)
    (for_inheritance : Bool) (fake_dml_set : Option QlExpr)
    (obj_constrs : List Constraint) (constrs : PtrConstraintMap) :
    Except CErr (Option (List String × List String × List (String × QlExpr))) :=
  match neededPtrs0 obj_constrs constrs with
  | .error e => .error e
  | .ok needed0 =>
    match ptrClosure env.schema subject_typ
        (closureFuel env.schema subject_typ needed0) needed0 needed0 [] with
    | .error e => .error e
    | .ok (needed, anchors0) =>
      match fakeAnchors env.schema subject_typ fake_dml_set needed anchors0 with
      | .error e => .error e
      | .ok anchors1 =>
        match shapeLoop env for_inheritance needed stmt.shape anchors1 [] with
        | .error e => .error e
        | .ok (anchors2, inShape) =>
          if for_inheritance && inShape.isEmpty then .ok none
          else
            match fillEmpty env.schema subject_typ needed anchors2 with
            | .error e => .error e
            | .ok anchors =>
              .ok (some (needed, anchors2.map (fun a => a.1), anchors))

/-- conflicts.py:147-172 for a single `constrs` entry: skipped entirely
when the pointer has no anchor (it is not in the `present_ptrs`
snapshot); otherwise one comparison per constraint — the substituted
anchor against the partial path `.ptr`, `=` for a single pointer and
`IN` for a multi pointer, both sides first substituted into the
constraint subject expression when there is one. -/
def ptrCondsOne (anchors : List (String × QlExpr)) (present : List String)
    (entry : String × Pointer × List Constraint) : Except CErr (List QlExpr) :=
  if entry.1 ∉ present then .ok []
  else
    match alookup anchors entry.1 with
    | none => .error .lookupFail
    | some a0 =>
      let anchor := subject_paths_substitute a0 anchors
      let ptr_val := QlExpr.ppath entry.1
      let op := if entry.2.1.card.isSingle then "=" else "IN"
      .ok (entry.2.2.map (fun cnstr =>
        match cnstr.subjectexpr with
        | some se =>
            QlExpr.binOp op (subject_substitute se anchor) (subject_substitute se ptr_val)
        | none => QlExpr.binOp op anchor ptr_val))

/-- The loop of conflicts.py:147-172 over all pointer-constraint
entries, in map order. -/
def buildPtrConds (anchors : List (String × QlExpr)) (present : List String) :
    PtrConstraintMap → Except CErr (List QlExpr)
  | [] => .ok []
  | entry :: rest =>
    match ptrCondsOne anchors present entry with
    | .error e => .error e
    | .ok cs =>
      match buildPtrConds anchors present rest with
      | .error e => .error e
      | .ok cs' => .ok (cs ++ cs')

/-- conflicts.py:177-183 for one object constraint: the anchor map
substituted into the subject expression (prospective value) equated
with the insert subject substituted into the same expression (existing
row); the missing subject expression trips the Python `assert`. -/
def objCondOne (anchors : List (String × QlExpr)) (insert_subject : QlExpr)
    (c : Constraint) : Except CErr QlExpr :=
  match c.subjectexpr with
  | none => .error .assertFail
  | some se =>
      .ok (QlExpr.binOp "="
        (subject_paths_substitute se anchors)
        (subject_substitute se insert_subject))

/-- The loop of conflicts.py:177-183 over all object constraints, in
order, one condition each. -/
def buildObjConds (anchors : List (String × QlExpr)) (insert_subject : QlExpr) :
    List Constraint → Except CErr (List QlExpr)
  | [] => .ok []
  | c :: rest =>
    match objCondOne anchors insert_subject c with
    | .error e => .error e
    | .ok d =>
      match buildObjConds anchors insert_subject rest with
      | .error e => .error e
      | .ok ds => .ok (d :: ds)

/-- conflicts.py:185-196: no conditions means nothing to check; a
single condition is used as is; several are combined through the
one-argument `any` disjunction over a set. -/
def combineConds (conds : List QlExpr) : Option QlExpr :=
  match conds with
  | [] => none
  | [c] => some c
  | _ => some (.anyOf conds)

/-- `_compile_conflict_select` (conflicts.py:49-216): synthesize the
select of conflicting objects for a single declaring type.  Returns
`ok none` when no check is needed. -/
def _compile_conflict_select (env : Env) (stmt : MutStmt) (subject_typ : Nat)
    (for_inheritance : Bool) (fake_dml_set : Option QlExpr)
    (obj_constrs : List Constraint) (constrs : PtrConstraintMap) :
    Except CErr (Option QlExpr) :=
  match resolveAnchors env stmt subject_typ for_inheritance fake_dml_set
      obj_constrs constrs with
  | .error e => .error e
  | .ok none => .ok none
  | .ok (some (_, present, anchors)) =>
    if anchors.isEmpty then
      .error (.queryError "INSERT UNLESS CONFLICT property requires matching shape")
    else
      match buildPtrConds anchors present constrs with
      | .error e => .error e
      | .ok pconds =>
        let insert_subject := QlExpr.objPath (env.schema.typeName subject_typ)
        match buildObjConds anchors insert_subject obj_constrs with
        | .error e => .error e
        | .ok oconds =>
          match combineConds (pconds ++ oconds) with
          | none => .ok none
          | some cond0 =>
            match fake_dml_set with
            | none => .ok (some (.detachedSelect insert_subject cond0))
            | some _ =>
              match alookup anchors ("id") with
              | none => .error .lookupFail
              | some ida =>
                .ok (some (.detachedSelect insert_subject
                  (.binOp "AND" cond0
                    (.binOp "!=" (subject_paths_substitute ida anchors)
                      (.ppath ("id"))))))

/-- The compiled union of the per-type sub-selects (the result of
`dispatch.compile` on `qlast.Set(elements=frags)` followed by
`setgen.scoped_set(..., force_reassign=True)`).  Modelled from the
spec: the expression compiler is a collaborator; a union of zero
fragments statically reduces to the empty set (the case
`compile_inheritance_conflict_selects` discards via its
`isinstance(select_ir, irast.EmptySet)` check), any other union
compiles to a scoped set of the fragments. -/
inductive IrSet : Type where
  | emptySet
  | scopedSet (frags : List QlExpr)
deriving Repr

def mkIrSet (frags : List QlExpr) : IrSet :=
  match frags with
  | [] => .emptySet
  | fs => .scopedSet fs

/-- conflicts.py:306-319: one `_compile_conflict_select` per declaring
type, collecting the non-empty fragments in order and recording
whether any came from a type other than the subject type
(`from_parent`). -/
def fragLoop (env : Env) (stmt : MutStmt) (subject_typ : Nat)
    (for_inheritance : Bool) (fake_dml_set : Option QlExpr) :
    ConflictTypeMap → Except CErr (List QlExpr × Bool)
  | [] => .ok ([], false)
  | (a_obj, pair) :: rest =>
    match _compile_conflict_select env stmt a_obj for_inheritance fake_dml_set
        pair.2 pair.1 with
    | .error e => .error e
    | .ok none => fragLoop env stmt subject_typ for_inheritance fake_dml_set rest
    | .ok (some frag) =>
      match fragLoop env stmt subject_typ for_inheritance fake_dml_set rest with
      | .error e => .error e
      | .ok (frags, fp) => .ok (frag :: frags, (a_obj != subject_typ) || fp)

/-- conflicts.py:301-304: for an inheritance check the caller has
already isolated the constraints and the subject type is the sole
bucket; otherwise the constraints are partitioned by declaring type. -/
def conflictTypeMaps (subject_typ : Nat) (for_inheritance : Bool)
    (obj_constrs : List Constraint) (constrs : PtrConstraintMap) :
    Except CErr ConflictTypeMap :=
  if for_inheritance then .ok [(subject_typ, (constrs, obj_constrs))]
  else _split_constraints obj_constrs constrs

/-- `compile_conflict_select` (conflicts.py:280-334): partition the
constraints, synthesize one sub-select per declaring type, union them,
and compute `always_check` — true iff some sub-select came from another
type or the subject type has a non-view child. -/
def compile_conflict_select (env : Env) (stmt : MutStmt) (subject_typ : Nat)
    (for_inheritance : Bool) (fake_dml_set : Option QlExpr)
    (obj_constrs : List Constraint) (constrs : PtrConstraintMap) :
    Except CErr (IrSet × Bool × Bool) :=
  match conflictTypeMaps subject_typ for_inheritance obj_constrs constrs with
  | .error e => .error e
  | .ok type_maps =>
    match fragLoop env stmt subject_typ for_inheritance fake_dml_set type_maps with
    | .error e => .error e
    | .ok (frags, from_parent) =>
      let always_check := from_parent ||
        (env.schema.children subject_typ).any (fun c => !env.schema.isView c)
      .ok (mkIrSet frags, always_check, from_parent)

/-- `_get_exclusive_ptr_constraints` (conflicts.py:337-354): for every
pointer of the type, normalized to its nearest non-derived parent, keep
the subclasses of `std::exclusive` among its constraints, excluding the
`id` pointer. -/
def _get_exclusive_ptr_constraints (env : Env) (typ : Nat) : PtrConstraintMap :=
  (env.schema.typePointers typ).foldl
    (fun acc ptr0 =>
      let ptr := env.schema.nndParentPtr ptr0
      let ex_cnstrs := (env.schema.ptrConstraints ptr).filter (fun c => c.isExclusive)
      if !ex_cnstrs.isEmpty && ptr.pname != "id" then
        aset ptr.pname (ptr, ex_cnstrs) acc
      else acc)
    []

/-- The `OnConflictClause` output artifact (ids stand in for the IR
object references: the matched constraint's id and, for `else_fail`,
the originating statement's id). -/
structure OnConflictClause : Type where
  constraintId : Option Nat
  selectIr : IrSet
  alwaysCheck : Bool
  elseIr : Option QlExpr
  elseFail : Option Nat
  updateQuerySet : Option QlExpr
deriving Repr

/-- `compile_insert_unless_conflict` (conflicts.py:357-378): the
implicit clause over all exclusive pointer constraints and all
object-level constraints, with no specific constraint id and no
alternative branch. -/
def compile_insert_unless_conflict (env : Env) (stmt : MutStmt) (typ : Nat) :
    Except CErr OnConflictClause :=
  let pointers := _get_exclusive_ptr_constraints env typ
  let obj_constrs := env.schema.typeConstraints typ
  match compile_conflict_select env stmt typ false none obj_constrs pointers with
  | .error e => .error e
  | .ok (select_ir, always_check, _) =>
    .ok ⟨none, select_ir, always_check, none, none, none⟩

/-- conflicts.py:432-438 for one already-resolved target pointer: the
pointer is normalized to its nearest non-derived parent and must be
single-cardinality.  (That the target argument is a pointer of the
statement's own subject at all is validated earlier against the
compiled IR, outside this embedding's inputs.) -/
def resolveOnePtr (env : Env) (p : Pointer) : Except CErr Pointer :=
  let p' := env.schema.nndParentPtr p
  if p'.card.isSingle then .ok p'
  else .error (.queryError "UNLESS CONFLICT property must be a SINGLE property")

/-- conflicts.py:445-449: the pointer-level exclusive constraints of the
single target pointer, when exactly one pointer was given. -/
def fieldConstrsOf (env : Env) (ptrs : List Pointer) : List Constraint :=
  match ptrs with
  | [p] => (env.schema.ptrConstraints p).filter (fun c => c.isExclusive)
  | _ => []

/-- conflicts.py:458-459: the pointer-constraint map handed to the
conflict select, one entry per resolved pointer (a dict comprehension;
a later duplicate name overwrites). -/
def dsOf (ptrs : List Pointer) (field_constrs : List Constraint) : PtrConstraintMap :=
  ptrs.foldl (fun acc p => aset p.pname (p, field_constrs) acc) []

/-- The loop of conflicts.py:420-440 over the resolved target
pointers, in order (the per-argument IR checks of
conflicts.py:403-430 are validated against the compiled IR before this
embedding's inputs are formed). -/
def resolvePtrs (env : Env) : List Pointer → Except CErr (List Pointer)
  | [] => .ok []
  | p :: rest =>
    match resolveOnePtr env p with
    | .error e => .error e
    | .ok p' =>
      match resolvePtrs env rest with
      | .error e => .error e
      | .ok ps => .ok (p' :: ps)

/-- `compile_insert_unless_conflict_on` (conflicts.py:381-490) from the
point where the target expression has been resolved to pointers:
validate cardinality, match exactly one applicable constraint (the
object-level constraints over the pointer set are supplied by the
cardinality-inference collaborator), synthesize the conflict select,
and compile the ELSE branch — rejected when the select drew from a
parent type.  The returned Bool records whether the statement's
subject path was added to the path-factoring allowlist for the ELSE
branch. -/
def compile_insert_unless_conflict_on (env : Env) (stmt : MutStmt) (typ : Nat)
    (cspec_ptrs : List Pointer) (obj_constrs : List Constraint)
    (else_branch : Option QlExpr) : Except CErr (OnConflictClause × Bool) :=
  match resolvePtrs env cspec_ptrs with
  | .error e => .error e
  | .ok ptrs =>
    let field_constrs := fieldConstrsOf env ptrs
    match obj_constrs ++ field_constrs with
    | [cnstr] =>
      match compile_conflict_select env stmt typ false none obj_constrs
          (dsOf ptrs field_constrs) with
      | .error e => .error e
      | .ok (select_ir, always_check, from_anc) =>
        match else_branch with
        | none => .ok (⟨some cnstr.cid, select_ir, always_check, none, none, none⟩, false)
        | some eb =>
          if from_anc then
            .error (.unsupported
              "UNLESS CONFLICT can not use ELSE when constraint is from a parent type")
          else
            .ok (⟨some cnstr.cid, select_ir, always_check, some eb, none, none⟩, true)
    | _ =>
      .error (.queryError "UNLESS CONFLICT property must have a single exclusive constraint")

/-- conflicts.py:517-524: one entry per mattering constraint of the
ancestor type — a singleton pointer-constraint map for each pointer
constraint, a singleton object-constraint list for each object
constraint. -/
def inhEntries (env : Env) (typ : Nat) : List (Constraint × ConstraintPair) :=
  ((_get_exclusive_ptr_constraints env typ).foldl
    (fun acc entry =>
      acc ++ (entry.2.2.filter _constr_matters).map
        (fun pc => (pc, ([(entry.1, entry.2.1, [pc])], []))))
    []) ++
  ((env.schema.typeConstraints typ).filter _constr_matters).map
    (fun oc => (oc, (([] : PtrConstraintMap), [oc])))

/-- `compile_inheritance_conflict_selects` (conflicts.py:493-553): one
conflict select per mattering constraint of the shared ancestor type;
for updates the overlay is a detached re-select of the subject type;
selects that statically reduce to an empty query are discarded; each
surviving constraint yields a clause tagged with its id,
`always_check = False` and the originating statement. -/
def compile_inheritance_conflict_selects (env : Env) (stmt conflict : MutStmt)
    (typ subject_type : Nat) : Except CErr (List OnConflictClause) :=
  let fake_dml_set :=
    if stmt.isUpdate then some (QlExpr.detachedPath (env.schema.typeName subject_type))
    else none
  (inhEntries env typ).foldlM
    (fun acc entry =>
      match compile_conflict_select env stmt typ true fake_dml_set
          entry.2.2 entry.2.1 with
      | .error e => .error e
      | .ok (select_ir, _, _) =>
        match select_ir with
        | .emptySet => .ok acc
        | _ =>
          .ok (acc ++ [⟨some entry.1.cid, select_ir, false, none,
            some conflict.sid, fake_dml_set⟩]))
    []

/-- conflicts.py:571-575 and 584-587: the candidate types for a
statement — its subject type plus, for updates, all descendants. -/
def candTypes (env : Env) (st : MutStmt) (t : Nat) : List Nat :=
  if st.isUpdate then t :: env.schema.descendants t else [t]

/-- Insertion into the `modified_ancestors` set: triples are identified
by (candidate type, ancestor type, originating statement id), matching
Python set membership of (type, type, IR node) tuples. -/
def tripleInsert (ms : List (Nat × Nat × MutStmt)) (tr : Nat × Nat × MutStmt) :
    List (Nat × Nat × MutStmt) :=
  if ms.any (fun x => x.1 == tr.1 && x.2.1 == tr.2.1 && x.2.2.sid == tr.2.2.sid) then ms
  else ms ++ [tr]

/-- conflicts.py:612-615: concatenate the inheritance conflict selects
of every recorded (candidate type, ancestor type, statement) triple. -/
def inhConflicters (env : Env) (stmt : MutStmt) :
    List (Nat × Nat × MutStmt) → Except CErr (List OnConflictClause)
  | [] => .ok []
  | tr :: rest =>
    match compile_inheritance_conflict_selects env stmt tr.2.2 tr.2.1 tr.1 with
    | .error e => .error e
    | .ok cls =>
      match inhConflicters env stmt rest with
      | .error e => .error e
      | .ok cls' => .ok (cls ++ cls')

/-- `compile_inheritance_conflict_checks` (conflicts.py:556-617): with
no other mutation statements there is nothing to do; otherwise, for
every pair of a candidate subject type and a candidate type of an
earlier statement (skipping views and same-type insert/insert pairs),
record every nearest common ancestor other than `std::BaseObject`, then
emit the inheritance conflict selects for each recorded triple. -/
def compile_inheritance_conflict_checks (env : Env) (stmt : MutStmt)
    (subject_stype : Nat) : Except CErr (Option (List OnConflictClause)) :=
  if env.dmlStmts.isEmpty then .ok none
  else
    let subject_stypes := candTypes env stmt subject_stype
    let modified_ancestors := env.dmlStmts.foldl
      (fun ms ir =>
        let typ0 := env.schema.nndParentType ir.subjectTid
        (candTypes env ir typ0).foldl
          (fun ms typ =>
            if env.schema.isView typ then ms
            else
              subject_stypes.foldl
                (fun ms st =>
                  if env.schema.isView st then ms
                  else if st == typ && !ir.isUpdate && !stmt.isUpdate then ms
                  else
                    (env.schema.commonAncestors st typ).foldl
                      (fun ms anc =>
                        if anc == env.schema.baseObject then ms
                        else tripleInsert ms (st, anc, ir))
                      ms)
                ms)
          ms)
      []
    match inhConflicters env stmt modified_ancestors with
    | .error e => .error e
    | .ok conflicters =>
      .ok (if conflicters.isEmpty then none else some conflicters)

/-- A miniature boolean evaluation of synthesized predicates,
parameterized by a valuation assigning a runtime value to every atomic
expression: `AND` is conjunction, `=` is value equality, `!=` is value
disequality, and anything else holds iff its value is non-zero.  Used
to state that the self-exclusion conjunct forces the predicate false on
the mutated row itself. -/
def qlEvalB (val : QlExpr → Nat) : QlExpr → Bool
  | .binOp "AND" l r => qlEvalB val l && qlEvalB val r
  | .binOp "=" l r => val l == val r
  | .binOp "!=" l r => val l != val r
  | e => val e != 0

theorem alookup_append {α β : Type} [DecidableEq α] (xs ys : List (α × β)) (k : α) :
    alookup (xs ++ ys) k =
      match alookup xs k with
      | some v => some v
      | none => alookup ys k := by
  induction xs with
  | nil => simp [alookup]
  | cons hd tl ih =>
    obtain ⟨k', v'⟩ := hd
    by_cases h : k' = k
    · simp [alookup, h]
    · simp [alookup, h, ih]

theorem alookup_append_some {α β : Type} [DecidableEq α] {xs : List (α × β)} {k : α}
    {v : β} (ys : List (α × β)) (h : alookup xs k = some v) :
    alookup (xs ++ ys) k = some v := by
  rw [alookup_append, h]

theorem alookup_append_none {α β : Type} [DecidableEq α] {xs : List (α × β)} {k : α}
    (ys : List (α × β)) (h : alookup xs k = none) :
    alookup (xs ++ ys) k = alookup ys k := by
  rw [alookup_append, h]

theorem alookup_singleton_ne {α β : Type} [DecidableEq α] {k k' : α} (v : β)
    (h : k' ≠ k) : alookup [(k, v)] k' = none := by
  have h' : ¬(k = k') := fun he => h he.symm
  simp [alookup, h']

theorem alookup_aset_self {α β : Type} [DecidableEq α] (xs : List (α × β)) (k : α)
    (v : β) : alookup (aset k v xs) k = some v := by
  induction xs with
  | nil => simp [aset, alookup]
  | cons hd tl ih =>
    obtain ⟨k', v'⟩ := hd
    by_cases h : k' = k
    · simp [aset, h, alookup]
    · simp [aset, h, alookup, ih]

theorem alookup_aset_ne {α β : Type} [DecidableEq α] (xs : List (α × β)) {k q : α}
    (v : β) (h : q ≠ k) : alookup (aset k v xs) q = alookup xs q := by
  have hkq : ¬(k = q) := fun he => h he.symm
  induction xs with
  | nil => simp [aset, alookup, hkq]
  | cons hd tl ih =>
    obtain ⟨k', v'⟩ := hd
    by_cases h' : k' = k
    · subst h'
      simp [aset, alookup, hkq]
    · simp [aset, h', alookup, ih]

theorem mem_dedupInsert_self (xs : List String) (x : String) : x ∈ dedupInsert xs x := by
  by_cases h : x ∈ xs <;> simp [dedupInsert, h]

theorem mem_dedupInsert_of_mem {xs : List String} {y : String} (x : String)
    (h : y ∈ xs) : y ∈ dedupInsert xs x := by
  by_cases h' : x ∈ xs <;> simp [dedupInsert, h', h]

theorem alookup_none_iff {α β : Type} [DecidableEq α] (xs : List (α × β)) (k : α) :
    alookup xs k = none ↔ k ∉ xs.map Prod.fst := by
  induction xs with
  | nil => simp [alookup]
  | cons hd tl ih =>
    obtain ⟨k', v'⟩ := hd
    by_cases h : k' = k
    · simp [alookup, h]
    · have h2 : ¬(k = k') := fun he => h he.symm
      simp [alookup, h, h2, ih]

/-- Scenario builder for C1: the enforcement-level constraint, owned at
the type declaring the pointer `ptrC`, neither generic nor delegated,
with no further ancestors. -/
def ancestorOwned (cidC : Nat) (excC : Bool) (ptrC : Pointer) (seC : Option QlExpr) :
    Constraint :=
  .mk cidC excC false false true [] (.ptrS ptrC) seC

/-- Scenario builder for C1: a copy of constraint `c` inherited
unchanged by a sibling type — not owned, not generic, not delegated,
with ancestor chain `[c]`, declared on the sibling's pointer `ptrA`. -/
def inheritedCopy (cidA : Nat) (excA : Bool) (ptrA : Pointer) (seA : Option QlExpr)
    (c : Constraint) : Constraint :=
  .mk cidA excA false false false [c] (.ptrS ptrA) seA

/-- C1: a constraint declared (owned) on an ancestor type and inherited
unchanged by a sibling concrete type is placed by `_split_constraints`
in exactly one bucket of the resulting type map — the bucket of the
declaring ancestor (the source type of the ancestor constraint's
subject pointer) — and in no other bucket.  The `_constr_matters`
filter over the inherited copy's chain selects exactly the ancestor
constraint: the copy itself does not matter (it is neither owned nor
are its ancestors all delegated-or-generic), while the owned ancestor
does.  Instantiating `ptrA` with either sibling's pointer yields the
same single ancestor bucket, so the constraint lands neither in both
siblings' buckets nor in zero buckets. -/
theorem C1_partition_single_bucket (cidC cidA : Nat) (excC excA : Bool)
    (ptrC ptrA : Pointer) (seC seA : Option QlExpr) (pn : String) :
    (constrChain (inheritedCopy cidA excA ptrA seA
        (ancestorOwned cidC excC ptrC seC))).filter _constr_matters =
      [ancestorOwned cidC excC ptrC seC] ∧
    _split_constraints []
        [(pn, ptrA, [inheritedCopy cidA excA ptrA seA (ancestorOwned cidC excC ptrC seC)])] =
      .ok [(ptrC.source, ([(pn, ptrC, [ancestorOwned cidC excC ptrC seC])], []))] :=
  ⟨rfl, rfl⟩

theorem alookup_append_single {α β : Type} [DecidableEq α] (xs : List (α × β))
    {p q : α} (v : β) (h : p ≠ q) : alookup (xs ++ [(q, v)]) p = alookup xs p := by
  rw [alookup_append]
  cases hx : alookup xs p
  · simp [alookup_singleton_ne v h]
  · rfl

/-- The state the worklist loop establishes for a fully processed
pointer: it exists on the subject type, a computed pointer is anchored
to its defining expression, a non-computed pointer has no anchor. -/
def closDone (s : Schema) (t : Nat) (anchors : List (String × QlExpr)) (p : String) :
    Prop :=
  ∃ ptr, s.getptr t p = some ptr ∧
    (∀ e, ptr.compExpr = some e → alookup anchors p = some e) ∧
    (ptr.compExpr = none → alookup anchors p = none)

theorem closDone_append_ne {s : Schema} {t : Nat} {anchors : List (String × QlExpr)}
    {p q : String} {v : QlExpr} (h : p ≠ q) (hd : closDone s t anchors p) :
    closDone s t (anchors ++ [(q, v)]) p := by
  obtain ⟨ptr, h1, h2, h3⟩ := hd
  refine ⟨ptr, h1, ?_, ?_⟩
  · intro e he
    rw [alookup_append_single _ _ h]
    exact h2 e he
  · intro hn
    rw [alookup_append_single _ _ h]
    exact h3 hn

theorem closExpand_spec (refs : List String) :
    ∀ (acc : List String × List String),
    (∀ x ∈ acc.1, x ∈ acc.2) →
    (∀ x ∈ acc.1, x ∈ (refs.foldl closExpand acc).1) ∧
    (∀ x ∈ acc.2, x ∈ (refs.foldl closExpand acc).2) ∧
    (∀ x ∈ (refs.foldl closExpand acc).1, x ∈ (refs.foldl closExpand acc).2) ∧
    (∀ x ∈ (refs.foldl closExpand acc).2,
      x ∈ acc.2 ∨ (x ∈ (refs.foldl closExpand acc).1 ∧ x ∉ acc.2)) := by
  induction refs with
  | nil =>
    intro acc hsub
    exact ⟨fun x hx => hx, fun x hx => hx, hsub, fun x hx => Or.inl hx⟩
  | cons r rest ih =>
    intro acc hsub
    by_cases hr : r ∈ acc.2
    · have hstep : closExpand acc r = acc := by simp [closExpand, hr]
      simpa [List.foldl_cons, hstep] using ih acc hsub
    · have hstep : closExpand acc r = (acc.1 ++ [r], acc.2 ++ [r]) := by
        simp [closExpand, hr]
      have hsub' : ∀ x ∈ acc.1 ++ [r], x ∈ acc.2 ++ [r] := by
        intro x hx
        rcases List.mem_append.1 hx with hx1 | hx1
        · exact List.mem_append.2 (Or.inl (hsub x hx1))
        · exact List.mem_append.2 (Or.inr hx1)
      obtain ⟨A1, A2, A3, A4⟩ := ih (acc.1 ++ [r], acc.2 ++ [r]) hsub'
      rw [List.foldl_cons, hstep]
      refine ⟨?_, ?_, A3, ?_⟩
      · intro x hx
        exact A1 x (List.mem_append.2 (Or.inl hx))
      · intro x hx
        exact A2 x (List.mem_append.2 (Or.inl hx))
      · intro x hx
        rcases A4 x hx with hx2 | ⟨hx1, hx2⟩
        · rcases List.mem_append.1 hx2 with hx3 | hx3
          · exact Or.inl hx3
          · have hxr : x = r := List.mem_singleton.1 hx3
            subst hxr
            exact Or.inr ⟨A1 x (List.mem_append.2 (Or.inr (List.mem_singleton.2 rfl))), hr⟩
        · refine Or.inr ⟨hx1, fun hc => hx2 (List.mem_append.2 (Or.inl hc))⟩

theorem ptrClosure_done (s : Schema) (t : Nat) :
    ∀ (fuel : Nat) (wl needed : List String) (anchors : List (String × QlExpr))
      {needed' : List String} {anchors' : List (String × QlExpr)},
    ptrClosure s t fuel wl needed anchors = .ok (needed', anchors') →
    (∀ p ∈ needed, (p ∈ wl ∧ alookup anchors p = none) ∨ closDone s t anchors p) →
    (∀ q : String, (alookup anchors q).isSome = true → q ∈ needed) →
    (∀ p ∈ wl, p ∈ needed) →
    ∀ p ∈ needed', closDone s t anchors' p := by
  intro fuel
  induction fuel with
  | zero =>
    intro wl needed anchors needed' anchors' heq h1 h2 h3
    cases wl with
    | nil =>
      simp only [ptrClosure, Except.ok.injEq, Prod.mk.injEq] at heq
      obtain ⟨he1, he2⟩ := heq
      subst he1
      subst he2
      intro p hp
      rcases h1 p hp with ⟨hw, _⟩ | hd
      · exact absurd hw (List.not_mem_nil p)
      · exact hd
    | cons a as => simp [ptrClosure] at heq
  | succ fuel ih =>
    intro wl needed anchors needed' anchors' heq h1 h2 h3
    cases wl with
    | nil =>
      simp only [ptrClosure, Except.ok.injEq, Prod.mk.injEq] at heq
      obtain ⟨he1, he2⟩ := heq
      subst he1
      subst he2
      intro p hp
      rcases h1 p hp with ⟨hw, _⟩ | hd
      · exact absurd hw (List.not_mem_nil p)
      · exact hd
    | cons p0 wlrest =>
      have hp0need : p0 ∈ needed := h3 p0 (List.mem_cons_self p0 wlrest)
      simp only [ptrClosure] at heq
      split at heq
      · simp at heq
      · rename_i ptr hg
        split at heq
        · rename_i hce
          refine ih wlrest needed anchors heq ?_ h2 ?_
          · intro p hp
            rcases h1 p hp with ⟨hw, hnone⟩ | hd
            · rcases List.mem_cons.1 hw with hpp | hw'
              · subst hpp
                refine Or.inr ⟨ptr, hg, ?_, fun _ => hnone⟩
                intro e' he'
                rw [hce] at he'
                exact absurd he' (by simp)
              · exact Or.inl ⟨hw', hnone⟩
            · exact Or.inr hd
          · intro p hp
            exact h3 p (List.mem_cons_of_mem p0 hp)
        · rename_i e hce
          have hsub0 : ∀ x ∈ (wlrest, needed).1, x ∈ (wlrest, needed).2 := by
            intro x hx
            exact h3 x (List.mem_cons_of_mem p0 hx)
          obtain ⟨A1, A2, A3, A4⟩ :=
            closExpand_spec (find_subject_ptrs e) (wlrest, needed) hsub0
          refine ih _ _ _ heq ?_ ?_ A3
          · intro p hp
            rcases A4 p hp with hn | ⟨hs1, hnn⟩
            · by_cases hpp : p = p0
              · subst hpp
                rcases h1 p hn with ⟨_, hnone⟩ | hd
                · refine Or.inr ⟨ptr, hg, ?_, ?_⟩
                  · intro e' he'
                    rw [hce] at he'
                    injection he' with hee
                    subst hee
                    rw [alookup_append_none _ hnone]
                    simp [alookup]
                  · intro hcn
                    rw [hce] at hcn
                    exact absurd hcn (by simp)
                · obtain ⟨ptr', hg', hsome, _⟩ := hd
                  rw [hg] at hg'
                  injection hg' with hpe
                  subst hpe
                  refine Or.inr ⟨ptr, hg, ?_, ?_⟩
                  · intro e' he'
                    rw [hce] at he'
                    injection he' with hee
                    subst hee
                    exact alookup_append_some _ (hsome e hce)
                  · intro hcn
                    rw [hce] at hcn
                    exact absurd hcn (by simp)
              · rcases h1 p hn with ⟨hw, hnone⟩ | hd
                · rcases List.mem_cons.1 hw with hpp' | hw'
                  · exact absurd hpp' hpp
                  · refine Or.inl ⟨A1 p hw', ?_⟩
                    rw [alookup_append_single _ _ hpp]
                    exact hnone
                · exact Or.inr (closDone_append_ne hpp hd)
            · have hl : alookup anchors p = none := by
                cases hl' : alookup anchors p with
                | none => rfl
                | some v => exact absurd (h2 p (by rw [hl']; rfl)) hnn
              have hpp : p ≠ p0 := fun hh => hnn (hh ▸ hp0need)
              refine Or.inl ⟨hs1, ?_⟩
              rw [alookup_append_single _ _ hpp]
              exact hl
          · intro q hq
            by_cases hqp : q = p0
            · subst hqp
              exact A2 q hp0need
            · rw [alookup_append_single _ _ hqp] at hq
              exact A2 q (h2 q hq)

theorem contains_iff_mem {l : List String} {x : String} : l.contains x = true ↔ x ∈ l := by
  induction l with
  | nil => simp
  | cons a as ih => simp [List.contains_cons] at ih ⊢

theorem fakeFold_lookup (s : Schema) (t : Nat) (f : QlExpr) :
    ∀ (L : List String) (base res : List (String × QlExpr)),
    fakeFold s t f L base = .ok res →
    ∀ q, alookup res q =
      if q ∈ L then some (QlExpr.anchorRef q (.pstep f q)) else alookup base q := by
  intro L
  induction L with
  | nil =>
    intro base res heq q
    simp only [fakeFold, Except.ok.injEq] at heq
    subst heq
    simp
  | cons k rest ih =>
    intro base res heq q
    simp only [fakeFold] at heq
    split at heq
    · simp at heq
    · rename_i ptr hg
      have hres := ih _ _ heq q
      by_cases hqr : q ∈ rest
      · rw [hres, if_pos hqr, if_pos (List.mem_cons_of_mem k hqr)]
      · rw [hres, if_neg hqr]
        by_cases hqk : q = k
        · subst hqk
          rw [if_pos (List.mem_cons_self q rest), alookup_aset_self]
        · rw [if_neg (fun hh => (List.mem_cons.1 hh).elim hqk hqr)]
          exact alookup_aset_ne _ _ hqk

/-- The value the statement shape supplies for a pointer: the first
shape entry carrying that pointer name, if any. -/
def firstShapeVal (shape : List (String × QlExpr)) (p : String) : Option QlExpr :=
  match shape with
  | [] => none
  | (n, e) :: rest => if n = p then some e else firstShapeVal rest p

theorem shapeLoop_lookup (env : Env) (fi : Bool) (needed : List String) :
    ∀ (shape : List (String × QlExpr)) (anchors : List (String × QlExpr))
      (inShape : List String) {anchors2 : List (String × QlExpr)} {inShape2 : List String},
    shapeLoop env fi needed shape anchors inShape = .ok (anchors2, inShape2) →
    ∀ p,
      (∀ v, alookup anchors p = some v → alookup anchors2 p = some v) ∧
      (alookup anchors p = none → p ∈ needed →
        (∀ e, firstShapeVal shape p = some e →
          alookup anchors2 p = some (QlExpr.anchorRef p e)) ∧
        (firstShapeVal shape p = none → alookup anchors2 p = none)) ∧
      (alookup anchors p = none → p ∉ needed → alookup anchors2 p = none) := by
  intro shape
  induction shape with
  | nil =>
    intro anchors inShape anchors2 inShape2 heq p
    simp only [shapeLoop, Except.ok.injEq, Prod.mk.injEq] at heq
    obtain ⟨he1, _⟩ := heq
    subst he1
    refine ⟨fun v hv => hv, fun hn _ => ⟨fun e he => by simp [firstShapeVal] at he, fun _ => hn⟩,
      fun hn _ => hn⟩
  | cons hd rest ih =>
    intro anchors inShape anchors2 inShape2 heq p
    obtain ⟨m, e0⟩ := hd
    simp only [shapeLoop] at heq
    split at heq
    · rename_i hguard
      split at heq
      · simp at heq
      · rename_i hvol
        rw [Bool.and_eq_true] at hguard
        obtain ⟨hcont, hnone0⟩ := hguard
        have hmnone : alookup anchors m = none := Option.isNone_iff_eq_none.1 hnone0
        have IH := ih _ _ heq
        by_cases hpm : p = m
        · subst hpm
          refine ⟨?_, ?_, ?_⟩
          · intro v hv
            rw [hmnone] at hv
            exact absurd hv (by simp)
          · intro _ _
            constructor
            · intro e he
              simp only [firstShapeVal, if_pos rfl] at he
              injection he with hee
              subst hee
              refine (IH p).1 _ ?_
              rw [alookup_append_none _ hmnone]
              simp [alookup]
            · intro he
              simp [firstShapeVal] at he
          · intro _ hnotin
            exact absurd (contains_iff_mem.1 hcont) hnotin
        · have hps : ∀ x : Option QlExpr,
              alookup (anchors ++ [(m, QlExpr.anchorRef m e0)]) p = alookup anchors p :=
            fun _ => alookup_append_single _ _ hpm
          have hmp : ¬(m = p) := fun hh => hpm hh.symm
          have hfs : firstShapeVal ((m, e0) :: rest) p = firstShapeVal rest p := by
            simp [firstShapeVal, hmp]
          refine ⟨?_, ?_, ?_⟩
          · intro v hv
            exact (IH p).1 v (by rw [hps none]; exact hv)
          · intro hn hin
            rw [hfs]
            exact (IH p).2.1 (by rw [hps none]; exact hn) hin
          · intro hn hnotin
            exact (IH p).2.2 (by rw [hps none]; exact hn) hnotin
    · rename_i hguard
      have IH := ih _ _ heq
      by_cases hpm : p = m
      · subst hpm
        refine ⟨(IH p).1, ?_, (IH p).2.2⟩
        intro hn hin
        exfalso
        apply hguard
        rw [Bool.and_eq_true]
        refine ⟨contains_iff_mem.2 hin, ?_⟩
        rw [hn]
        rfl
      · have hmp : ¬(m = p) := fun hh => hpm hh.symm
        have hfs : firstShapeVal ((m, e0) :: rest) p = firstShapeVal rest p := by
          simp [firstShapeVal, hmp]
        refine ⟨(IH p).1, ?_, (IH p).2.2⟩
        intro hn hin
        rw [hfs]
        exact (IH p).2.1 hn hin

theorem fillFold_lookup (s : Schema) (t : Nat) :
    ∀ (L : List String) (base res : List (String × QlExpr)),
    fillFold s t L base = .ok res →
    (∀ p v, alookup base p = some v → alookup res p = some v) ∧
    (∀ p, p ∈ L → alookup base p = none →
      ∃ ptr, s.getptr t p = some ptr ∧ alookup res p = some (QlExpr.emptyCast ptr.target)) := by
  intro L
  induction L with
  | nil =>
    intro base res heq
    simp only [fillFold, Except.ok.injEq] at heq
    subst heq
    exact ⟨fun p v hv => hv, fun p hp => absurd hp (List.not_mem_nil p)⟩
  | cons k rest ih =>
    intro base res heq
    simp only [fillFold] at heq
    split at heq
    · simp at heq
    · rename_i ptrk hg
      obtain ⟨IH1, IH2⟩ := ih _ _ heq
      constructor
      · intro p v hv
        exact IH1 p v (alookup_append_some _ hv)
      · intro p hp hnone
        by_cases hpk : p = k
        · subst hpk
          refine ⟨ptrk, hg, ?_⟩
          apply IH1
          rw [alookup_append_none _ hnone]
          simp [alookup]
        · rcases List.mem_cons.1 hp with hpk' | hpr
          · exact absurd hpk' hpk
          · refine IH2 p hpr ?_
            rw [alookup_append_single _ _ hpk]
            exact hnone

theorem shapeLoop_volatile_error (env : Env) (fi : Bool) (needed : List String) :
    ∀ (shape : List (String × QlExpr)) (anchors : List (String × QlExpr))
      (inShape : List String) (n : String) (e : QlExpr),
    (n, e) ∈ shape → n ∈ needed → alookup anchors n = none →
    (∀ e', (n, e') ∈ shape → env.isVolatile e' = true) →
    shapeLoop env fi needed shape anchors inShape = .error (.unsupported (volMsg fi)) := by
  intro shape
  induction shape with
  | nil =>
    intro anchors inShape n e hmem
    exact absurd hmem (List.not_mem_nil _)
  | cons hd rest ih =>
    intro anchors inShape n e hmem hneed hnone hall
    obtain ⟨m, e0⟩ := hd
    by_cases hmn : m = n
    · subst hmn
      have hguard : (needed.contains m && (alookup anchors m).isNone) = true := by
        rw [Bool.and_eq_true]
        refine ⟨contains_iff_mem.2 hneed, ?_⟩
        rw [hnone]
        rfl
      have hvol : env.isVolatile e0 = true :=
        hall e0 (List.mem_cons_self _ _)
      simp only [shapeLoop, hguard, hvol, if_true]
    · have hguard2 : ∀ b : Bool, b = (needed.contains m && (alookup anchors m).isNone) →
          shapeLoop env fi needed ((m, e0) :: rest) anchors inShape =
            .error (.unsupported (volMsg fi)) := by
        intro b hb
        have hrest : (n, e) ∈ rest := by
          rcases List.mem_cons.1 hmem with hh | hh
          · exact absurd (congrArg Prod.fst hh).symm hmn
          · exact hh
        have hall' : ∀ e', (n, e') ∈ rest → env.isVolatile e' = true :=
          fun e' he' => hall e' (List.mem_cons_of_mem _ he')
        cases b with
        | true =>
          rw [eq_comm] at hb
          cases hvol0 : env.isVolatile e0 with
          | true => simp only [shapeLoop, hb, hvol0, if_true]
          | false =>
            simp only [shapeLoop, hb, hvol0, if_true, Bool.false_eq_true, if_false]
            refine ih _ _ n e hrest hneed ?_ hall'
            rw [alookup_append_single _ _ (fun hh => hmn hh.symm)]
            exact hnone
        | false =>
          rw [eq_comm] at hb
          simp only [shapeLoop, hb, Bool.false_eq_true, if_false]
          exact ih _ _ n e hrest hneed hnone hall'
      exact hguard2 _ rfl

theorem resolveAnchors_inv (env : Env) (stmt : MutStmt) (t : Nat) (fi : Bool)
    (fake : Option QlExpr) (oc : List Constraint) (cs : PtrConstraintMap)
    {needed present : List String} {anchors : List (String × QlExpr)}
    (h : resolveAnchors env stmt t fi fake oc cs = .ok (some (needed, present, anchors))) :
    ∃ needed0 anchors0 anchors1 anchors2 inShape,
      neededPtrs0 oc cs = .ok needed0 ∧
      ptrClosure env.schema t (closureFuel env.schema t needed0) needed0 needed0 [] =
        .ok (needed, anchors0) ∧
      fakeAnchors env.schema t fake needed anchors0 = .ok anchors1 ∧
      shapeLoop env fi needed stmt.shape anchors1 [] = .ok (anchors2, inShape) ∧
      (fi && inShape.isEmpty) = false ∧
      fillEmpty env.schema t needed anchors2 = .ok anchors ∧
      present = anchors2.map (fun a => a.1) := by
  simp only [resolveAnchors] at h
  split at h
  · simp at h
  · rename_i needed0 hn
    split at h
    · simp at h
    · rename_i neededx anchors0 hc
      split at h
      · simp at h
      · rename_i anchors1 hf
        split at h
        · simp at h
        · rename_i anchors2 inShape hs
          split at h
          · simp at h
          · rename_i hguard
            split at h
            · simp at h
            · rename_i anchorsf hfill
              simp only [Except.ok.injEq, Option.some.injEq, Prod.mk.injEq] at h
              obtain ⟨h1, h2, h3⟩ := h
              subst h1
              subst h2
              subst h3
              exact ⟨needed0, anchors0, anchors1, anchors2, inShape, hn, hc, hf, hs,
                Bool.eq_false_iff.2 hguard, hfill, rfl⟩

/-- C4 (amended): for every needed pointer, `_compile_conflict_select`
resolves its anchor with precedence (a) override set, then (b) the
computed pointer's schema-level defining expression, then (c) the
statement shape's value for the pointer, then (d) a statically empty
set cast to the pointer's declared target type.  The claim as frozen
puts the shape (its case (b)) ahead of the computed expression (its
case (c)); the code installs computed-pointer anchors in the worklist
loop before the shape loop runs, and the shape loop skips pointers
that already have an anchor, so a pointer that is both computed and
present in the shape is anchored to its defining expression — see the
counterexample. -/
theorem C4_anchor_resolution_order (env : Env) (stmt : MutStmt) (t : Nat) (fi : Bool)
    (fake : Option QlExpr) (oc : List Constraint) (cs : PtrConstraintMap)
    {needed present : List String} {anchors : List (String × QlExpr)} {p : String}
    (h : resolveAnchors env stmt t fi fake oc cs = .ok (some (needed, present, anchors)))
    (hp : p ∈ needed) :
    (∀ f, fake = some f → alookup anchors p = some (QlExpr.anchorRef p (.pstep f p))) ∧
    (∀ ptr e, fake = none → env.schema.getptr t p = some ptr → ptr.compExpr = some e →
      alookup anchors p = some e) ∧
    (∀ ptr e, fake = none → env.schema.getptr t p = some ptr → ptr.compExpr = none →
      firstShapeVal stmt.shape p = some e →
      alookup anchors p = some (QlExpr.anchorRef p e)) ∧
    (∀ ptr, fake = none → env.schema.getptr t p = some ptr → ptr.compExpr = none →
      firstShapeVal stmt.shape p = none →
      alookup anchors p = some (QlExpr.emptyCast ptr.target)) := by
  obtain ⟨needed0, anchors0, anchors1, anchors2, inShape, hn, hc, hf, hs, hguard, hfill, hpres⟩ :=
    resolveAnchors_inv env stmt t fi fake oc cs h
  have hdone : ∀ q ∈ needed, closDone env.schema t anchors0 q := by
    refine ptrClosure_done env.schema t _ needed0 needed0 [] hc ?_ ?_ ?_
    · intro q hq
      exact Or.inl ⟨hq, rfl⟩
    · intro q hq
      simp [alookup] at hq
    · intro q hq
      exact hq
  have SL := shapeLoop_lookup env fi needed stmt.shape anchors1 [] hs
  have hfill' : fillFold env.schema t
      (needed.filter (fun q => (alookup anchors2 q).isNone)) anchors2 = .ok anchors := hfill
  obtain ⟨F1, F2⟩ := fillFold_lookup env.schema t _ anchors2 anchors hfill'
  refine ⟨?_, ?_, ?_, ?_⟩
  · intro f hfk
    subst hfk
    have hf' : fakeFold env.schema t f (dedupInsert needed ("id")) anchors0 = .ok anchors1 := hf
    have h1 := fakeFold_lookup env.schema t f _ anchors0 anchors1 hf' p
    rw [if_pos (mem_dedupInsert_of_mem _ hp)] at h1
    exact F1 p _ ((SL p).1 _ h1)
  · intro ptr e hfk hget hce
    subst hfk
    have hf' : anchors0 = anchors1 := by
      simp only [fakeAnchors, Except.ok.injEq] at hf
      exact hf
    obtain ⟨ptr', hget', hsome', _⟩ := hdone p hp
    rw [hget] at hget'
    injection hget' with hpe
    subst hpe
    have h0 : alookup anchors0 p = some e := hsome' e hce
    rw [hf'] at h0
    exact F1 p _ ((SL p).1 _ h0)
  · intro ptr e hfk hget hce hsv
    subst hfk
    have hf' : anchors0 = anchors1 := by
      simp only [fakeAnchors, Except.ok.injEq] at hf
      exact hf
    obtain ⟨ptr', hget', _, hnone'⟩ := hdone p hp
    rw [hget] at hget'
    injection hget' with hpe
    subst hpe
    have h0 : alookup anchors0 p = none := hnone' hce
    rw [hf'] at h0
    exact F1 p _ (((SL p).2.1 h0 hp).1 e hsv)
  · intro ptr hfk hget hce hsv
    subst hfk
    have hf' : anchors0 = anchors1 := by
      simp only [fakeAnchors, Except.ok.injEq] at hf
      exact hf
    obtain ⟨ptr', hget', _, hnone'⟩ := hdone p hp
    rw [hget] at hget'
    injection hget' with hpe
    subst hpe
    have h0 : alookup anchors0 p = none := hnone' hce
    rw [hf'] at h0
    have h2 : alookup anchors2 p = none := ((SL p).2.1 h0 hp).2 hsv
    have hmem : p ∈ needed.filter (fun q => (alookup anchors2 q).isNone) := by
      rw [List.mem_filter]
      refine ⟨hp, ?_⟩
      rw [h2]
      rfl
    obtain ⟨ptr'', hget'', hlook⟩ := F2 p hmem h2
    rw [hget] at hget''
    injection hget'' with hpe2
    subst hpe2
    exact hlook

/-- The concrete schema of the C4 counterexample: one object type with
a single pointer `n` that is computed (defining expression `lit 5`). -/
def ptrN4 : Pointer := ⟨1, "n", .one, 7, some (.lit 5)⟩

def sch4 : Schema :=
  ⟨[⟨1, "T4", false, [ptrN4], [], [], []⟩], fun _ => [], fun p => p, fun t => t,
    fun _ _ => [], 0⟩

def env4 : Env := ⟨sch4, fun _ => false, []⟩

/-- The C4 counterexample statement: its shape also supplies a value
(`lit 9`) for the computed pointer `n`. -/
def stmt4 : MutStmt := ⟨false, [("n", .lit 9)], 1, 1⟩

/-- C4 counterexample: the claim's resolution order puts the shape
(case (b)) ahead of the computed defining expression (case (c)), so for
a pointer that is both computed and present in the shape it predicts a
shape-derived anchor `anchorRef n (lit 9)`.  The code resolves the
anchor to the defining expression `lit 5` instead: computed pointers
are anchored in the worklist loop before the shape is consulted, and
the shape loop skips already-anchored pointers. -/
theorem C4_counterexample :
    resolveAnchors env4 stmt4 1 false none [] [("n", ptrN4, [])] =
      .ok (some (["n"], ["n"], [("n", QlExpr.lit 5)])) ∧
    firstShapeVal stmt4.shape ("n") = some (QlExpr.lit 9) ∧
    ptrN4.compExpr = some (QlExpr.lit 5) ∧
    QlExpr.lit 5 ≠ QlExpr.anchorRef ("n") (QlExpr.lit 9) :=
  ⟨rfl, rfl, rfl, by simp⟩

/-- The concrete schema of the C4 witness: one object type with a
single non-computed pointer `m` that the statement shape does not
mention, so resolution falls through to the empty-set cast. -/
def ptrM4 : Pointer := ⟨1, "m", .one, 7, none⟩

def sch4w : Schema :=
  ⟨[⟨1, "T4w", false, [ptrM4], [], [], []⟩], fun _ => [], fun p => p, fun t => t,
    fun _ _ => [], 0⟩

def env4w : Env := ⟨sch4w, fun _ => false, []⟩

def stmt4w : MutStmt := ⟨false, [], 1, 1⟩

theorem C4_anchor_resolution_order_witness :
    resolveAnchors env4w stmt4w 1 false none [] [("m", ptrM4, [])] =
      .ok (some (["m"], [], [("m", QlExpr.emptyCast 7)])) ∧
    alookup [("m", QlExpr.emptyCast 7)] ("m") = some (QlExpr.emptyCast 7) := by
  refine ⟨rfl, ?_⟩
  have h := @C4_anchor_resolution_order env4w stmt4w 1 false none [] [("m", ptrM4, [])]
    (["m"]) ([]) ([("m", QlExpr.emptyCast 7)]) ("m") rfl (by simp)
  exact h.2.2.2 ptrM4 rfl rfl rfl rfl

/-- C5 (amended): when `_compile_conflict_select` is invoked for an
inheritance check, it returns `none` ("no check needed") when the
statement's shape is empty — `ptrs_in_shape` collects every shape
pointer name, needed or not, so the short-circuit fires only for a
shape with no entries at all.  The claim as frozen has it fire whenever
the shape references no *needed* pointer; a shape referencing only
unrelated pointers defeats the short-circuit and a query is built — see
the counterexample. -/
theorem C5_inheritance_empty_shape (env : Env) (stmt : MutStmt) (t : Nat)
    (fake : Option QlExpr) (oc : List Constraint) (cs : PtrConstraintMap)
    (needed0 needed : List String) (anchors0 anchors1 : List (String × QlExpr))
    (hshape : stmt.shape = [])
    (hn : neededPtrs0 oc cs = .ok needed0)
    (hc : ptrClosure env.schema t (closureFuel env.schema t needed0) needed0 needed0 [] =
      .ok (needed, anchors0))
    (hf : fakeAnchors env.schema t fake needed anchors0 = .ok anchors1) :
    _compile_conflict_select env stmt t true fake oc cs = .ok none := by
  simp [_compile_conflict_select, resolveAnchors, hn, hc, hf, hshape, shapeLoop]

/-- The object-level constraint of the C5 counterexample and witness:
declared on the subject type with subject expression `__subject__.n`. -/
def oc5 : Constraint := .mk 50 true false false true [] (.objS 1) (some (.subjPath "n"))

def ptrN5 : Pointer := ⟨1, "n", .one, 7, none⟩

def sch5 : Schema :=
  ⟨[⟨1, "T5", false, [ptrN5], [oc5], [], []⟩], fun _ => [], fun p => p, fun t => t,
    fun _ _ => [], 0⟩

def env5 : Env := ⟨sch5, fun _ => false, []⟩

/-- The C5 counterexample statement: its shape mentions only the
pointer `x`, which is not needed by any constraint (`n` is). -/
def stmt5 : MutStmt := ⟨false, [("x", .lit 1)], 1, 1⟩

def stmt5w : MutStmt := ⟨false, [], 1, 1⟩

/-- C5 counterexample: in an inheritance check whose shape references
no needed pointer (`x` is in the shape, only `n` is needed), the claim
predicts the function returns `none`; the code builds and returns a
conflict select instead, because `ptrs_in_shape` is non-empty — the
short-circuit tests shape emptiness, not overlap with the needed
pointers. -/
theorem C5_counterexample :
    _compile_conflict_select env5 stmt5 1 true none [oc5] [] =
      .ok (some (.detachedSelect (.objPath "T5")
        (.binOp "=" (QlExpr.emptyCast 7) (.pstep (.objPath "T5") "n")))) ∧
    neededPtrs0 [oc5] [] = .ok ["n"] ∧
    stmt5.shape.all (fun pe => !(["n"].contains pe.1)) = true ∧
    (Except.ok (some (QlExpr.detachedSelect (.objPath "T5")
        (.binOp "=" (QlExpr.emptyCast 7) (.pstep (.objPath "T5") "n")))) :
      Except CErr (Option QlExpr)) ≠ .ok none :=
  ⟨rfl, rfl, rfl, by simp⟩

theorem C5_inheritance_empty_shape_witness :
    _compile_conflict_select env5 stmt5w 1 true none [oc5] [] = .ok none :=
  C5_inheritance_empty_shape env5 stmt5w 1 none [oc5] [] ["n"] ["n"] [] []
    rfl rfl rfl rfl

/-- C6: if the statement shape supplies a value for a needed pointer
that has no anchor yet and that value (like every shape value for that
pointer) is volatile, `_compile_conflict_select` raises an
unsupported-feature error instead of building an anchor, and the error
message differs between the two call origins: one message under
`for_inheritance` (cross-type inheritance conflict detection), another
otherwise (a conflict-on clause). -/
theorem C6_volatile_shape_error (env : Env) (stmt : MutStmt) (t : Nat) (fi : Bool)
    (fake : Option QlExpr) (oc : List Constraint) (cs : PtrConstraintMap)
    (needed0 needed : List String) (anchors0 anchors1 : List (String × QlExpr))
    (n : String) (e : QlExpr)
    (hn : neededPtrs0 oc cs = .ok needed0)
    (hc : ptrClosure env.schema t (closureFuel env.schema t needed0) needed0 needed0 [] =
      .ok (needed, anchors0))
    (hf : fakeAnchors env.schema t fake needed anchors0 = .ok anchors1)
    (hmem : (n, e) ∈ stmt.shape)
    (hneed : n ∈ needed)
    (hanch : alookup anchors1 n = none)
    (hall : ∀ e', (n, e') ∈ stmt.shape → env.isVolatile e' = true) :
    _compile_conflict_select env stmt t fi fake oc cs =
      .error (.unsupported (volMsg fi)) ∧
    volMsg true ≠ volMsg false := by
  constructor
  · have hsl := shapeLoop_volatile_error env fi needed stmt.shape anchors1 [] n e
      hmem hneed hanch hall
    simp [_compile_conflict_select, resolveAnchors, hn, hc, hf, hsl]
  · decide

def ptrN6 : Pointer := ⟨1, "n", .one, 7, none⟩

def sch6 : Schema :=
  ⟨[⟨1, "T6", false, [ptrN6], [], [], []⟩], fun _ => [], fun p => p, fun t => t,
    fun _ _ => [], 0⟩

/-- The C6 witness environment: every expression is inferred
volatile. -/
def env6 : Env := ⟨sch6, fun _ => true, []⟩

def stmt6 : MutStmt := ⟨false, [("n", .lit 3)], 1, 1⟩

theorem C6_volatile_shape_error_witness :
    _compile_conflict_select env6 stmt6 1 false none [] [("n", ptrN6, [])] =
      .error (.unsupported (volMsg false)) ∧
    volMsg true ≠ volMsg false :=
  C6_volatile_shape_error env6 stmt6 1 false none [] [("n", ptrN6, [])]
    ["n"] ["n"] [] [] ("n") (.lit 3) rfl rfl rfl (by simp [stmt6]) (by simp) rfl
    (fun e' _ => rfl)

/-- The filter condition of a synthesized conflict select. -/
def whereOf : QlExpr → QlExpr
  | .detachedSelect _ c => c
  | e => e

/-- C7: whenever an override set (`fake_dml_set`) is supplied and
`_compile_conflict_select` produces a select, the combined predicate is
strengthened with the conjunct `anchor(id) != existing.id` — the `id`
anchor built off the override set against the existing row's partial
`id` path — and under any valuation in which the existing row's
identity equals the mutation's identity anchor the whole predicate
evaluates to false, so the mutated row never appears in its own
conflict-select result even if all other predicates match it. -/
theorem C7_self_exclusion (env : Env) (stmt : MutStmt) (t : Nat) (fi : Bool)
    (f : QlExpr) (oc : List Constraint) (cs : PtrConstraintMap) {sel : QlExpr}
    (h : _compile_conflict_select env stmt t fi (some f) oc cs = .ok (some sel)) :
    (∃ c, sel = .detachedSelect (QlExpr.objPath (env.schema.typeName t))
      (.binOp "AND" c
        (.binOp "!=" (QlExpr.anchorRef ("id") (.pstep f ("id"))) (.ppath ("id"))))) ∧
    (∀ val : QlExpr → Nat,
      val (QlExpr.anchorRef ("id") (.pstep f ("id"))) = val (QlExpr.ppath ("id")) →
      qlEvalB val (whereOf sel) = false) := by
  simp only [_compile_conflict_select] at h
  split at h
  · simp at h
  · simp at h
  · rename_i a present anchors hres
    have hid : alookup anchors ("id") =
        some (QlExpr.anchorRef ("id") (.pstep f ("id"))) := by
      obtain ⟨needed0, anchors0, anchors1, anchors2, inShape, hn, hc, hf, hs, hg, hfill, hpres⟩ :=
        resolveAnchors_inv env stmt t fi (some f) oc cs hres
      have hf' : fakeFold env.schema t f (dedupInsert a ("id")) anchors0 = .ok anchors1 := hf
      have h1 := fakeFold_lookup env.schema t f _ anchors0 anchors1 hf' ("id")
      rw [if_pos (mem_dedupInsert_self a ("id"))] at h1
      have SL := shapeLoop_lookup env fi a stmt.shape anchors1 [] hs
      have hfill' : fillFold env.schema t
          (a.filter (fun q => (alookup anchors2 q).isNone)) anchors2 = .ok anchors := hfill
      obtain ⟨F1, _⟩ := fillFold_lookup env.schema t _ anchors2 anchors hfill'
      exact F1 _ _ ((SL ("id")).1 _ h1)
    split at h
    · simp at h
    · split at h
      · simp at h
      · rename_i pconds hpc
        split at h
        · simp at h
        · rename_i oconds hoc
          split at h
          · simp at h
          · rename_i cond0 hcomb
            split at h
            · rename_i hida
              rw [hid] at hida
              simp at hida
            · rename_i ida hida
              rw [hid] at hida
              injection hida with hida'
              subst hida'
              simp only [subject_paths_substitute, Except.ok.injEq, Option.some.injEq] at h
              constructor
              · exact ⟨cond0, h.symm⟩
              · intro val hv
                rw [← h]
                simp only [whereOf, qlEvalB, hv, bne_self_eq_false, Bool.and_false]

def fk7 : QlExpr := .detachedPath "T7"

def ptrN7 : Pointer := ⟨1, "n", .one, 7, none⟩

def ptrId7 : Pointer := ⟨1, "id", .one, 3, none⟩

def cn7 : Constraint := .mk 70 true false false true [] (.ptrS ptrN7) none

def sch7 : Schema :=
  ⟨[⟨1, "T7", false, [ptrN7, ptrId7], [], [], []⟩], fun _ => [], fun p => p, fun t => t,
    fun _ _ => [], 0⟩

def env7 : Env := ⟨sch7, fun _ => false, []⟩

def stmt7 : MutStmt := ⟨true, [("n", .lit 4)], 1, 1⟩

/-- The select the C7 witness run produces. -/
def sel7 : QlExpr :=
  .detachedSelect (.objPath "T7")
    (.binOp "AND"
      (.binOp "=" (QlExpr.anchorRef ("n") (.pstep fk7 ("n"))) (.ppath ("n")))
      (.binOp "!=" (QlExpr.anchorRef ("id") (.pstep fk7 ("id"))) (.ppath ("id"))))

def val7 : QlExpr → Nat := fun _ => 0

theorem C7_self_exclusion_witness :
    _compile_conflict_select env7 stmt7 1 false (some fk7) [] [("n", ptrN7, [cn7])] =
      .ok (some sel7) ∧
    qlEvalB val7 (whereOf sel7) = false := by
  refine ⟨rfl, ?_⟩
  have h := C7_self_exclusion env7 stmt7 1 false fk7 [] [("n", ptrN7, [cn7])] rfl
  exact h.2 val7 rfl

/-- The predicate the claim describes for one (pointer, constraint)
pair, stated from the spec's words (for comparison with the code's
`ptrCondsOne`): `anchor OP path` where OP is `=` for a
single-cardinality pointer and `IN` (set membership) for a multi
pointer; when the constraint has a subject expression, both the anchor
side and the path side are first substituted into it in place of its
subject placeholder before the comparison is built. -/
def specPtrPredicate (anchor ptr_val : QlExpr) (single : Bool)
    (subjexpr : Option QlExpr) : QlExpr :=
  match subjexpr with
  | some se =>
      QlExpr.binOp (if single then "=" else "IN")
        (subject_substitute se anchor) (subject_substitute se ptr_val)
  | none => QlExpr.binOp (if single then "=" else "IN") anchor ptr_val

theorem ptrCondsOne_ok (anchors : List (String × QlExpr)) (present : List String)
    (entry : String × Pointer × List Constraint) {out : List QlExpr}
    (h : ptrCondsOne anchors present entry = .ok out) :
    (entry.1 ∉ present ∧ out = []) ∨
    (entry.1 ∈ present ∧ ∃ a0, alookup anchors entry.1 = some a0 ∧
      out = entry.2.2.map (fun cnstr =>
        specPtrPredicate (subject_paths_substitute a0 anchors) (.ppath entry.1)
          entry.2.1.card.isSingle cnstr.subjectexpr)) := by
  simp only [ptrCondsOne] at h
  split at h
  · rename_i hnp
    simp only [Except.ok.injEq] at h
    exact Or.inl ⟨hnp, h.symm⟩
  · rename_i hp
    split at h
    · simp at h
    · rename_i a0 ha0
      simp only [Except.ok.injEq] at h
      refine Or.inr ⟨not_not.1 hp, a0, ha0, ?_⟩
      rw [← h]
      apply List.map_congr_left
      intro cnstr _
      cases hse : cnstr.subjectexpr <;> simp [specPtrPredicate, hse]

/-- C2: in the pointer-condition loop of `_compile_conflict_select`,
for every (pointer, constraint) pair whose pointer has an anchor (is in
the `present_ptrs` snapshot), the synthesized predicate is exactly
`specPtrPredicate`: the substituted anchor compared with the partial
path `.ptr` under `=` for a single pointer and `IN` for a multi
pointer, both sides first substituted into the constraint subject
expression in place of its subject placeholder when one is present —
and every condition the loop emits arises this way. -/
theorem C2_pointer_predicates (anchors : List (String × QlExpr)) (present : List String)
    (cs : PtrConstraintMap) {conds : List QlExpr}
    (h : buildPtrConds anchors present cs = .ok conds) :
    (∀ pn ptr cnstrs cnstr, (pn, ptr, cnstrs) ∈ cs → pn ∈ present → cnstr ∈ cnstrs →
      ∃ a0, alookup anchors pn = some a0 ∧
        specPtrPredicate (subject_paths_substitute a0 anchors) (.ppath pn)
          ptr.card.isSingle cnstr.subjectexpr ∈ conds) ∧
    (∀ cond ∈ conds, ∃ pn ptr cnstrs cnstr a0, (pn, ptr, cnstrs) ∈ cs ∧ pn ∈ present ∧
      cnstr ∈ cnstrs ∧ alookup anchors pn = some a0 ∧
      cond = specPtrPredicate (subject_paths_substitute a0 anchors) (.ppath pn)
        ptr.card.isSingle cnstr.subjectexpr) := by
  induction cs generalizing conds with
  | nil =>
    simp only [buildPtrConds, Except.ok.injEq] at h
    subst h
    constructor
    · intro pn ptr cnstrs cnstr hmem
      exact absurd hmem (List.not_mem_nil _)
    · intro cond hmem
      exact absurd hmem (List.not_mem_nil _)
  | cons entry rest ih =>
    simp only [buildPtrConds] at h
    split at h
    · simp at h
    · rename_i cs0 hone
      split at h
      · simp at h
      · rename_i cs1 hrest
        simp only [Except.ok.injEq] at h
        subst h
        obtain ⟨IH1, IH2⟩ := ih hrest
        constructor
        · intro pn ptr cnstrs cnstr hmem hpres hcn
          rcases List.mem_cons.1 hmem with hhd | htl
          · rcases ptrCondsOne_ok anchors present entry hone with ⟨hnp, _⟩ | ⟨_, a0, ha0, hout⟩
            · rw [← hhd] at hnp
              exact absurd hpres hnp
            · refine ⟨a0, by rw [← hhd] at ha0; exact ha0, ?_⟩
              apply List.mem_append.2
              left
              rw [hout, ← hhd]
              exact List.mem_map.2 ⟨cnstr, hcn, rfl⟩
          · obtain ⟨a0, ha0, hm⟩ := IH1 pn ptr cnstrs cnstr htl hpres hcn
            exact ⟨a0, ha0, List.mem_append.2 (Or.inr hm)⟩
        · intro cond hmem
          rcases List.mem_append.1 hmem with hm0 | hm1
          · rcases ptrCondsOne_ok anchors present entry hone with ⟨_, hout⟩ | ⟨hp, a0, ha0, hout⟩
            · rw [hout] at hm0
              exact absurd hm0 (List.not_mem_nil _)
            · rw [hout] at hm0
              obtain ⟨cnstr, hcn, heq⟩ := List.mem_map.1 hm0
              exact ⟨entry.1, entry.2.1, entry.2.2, cnstr, a0,
                by rw [show (entry.1, entry.2.1, entry.2.2) = entry from rfl]; exact List.mem_cons_self _ _,
                hp, hcn, ha0, heq.symm⟩
          · obtain ⟨pn, ptr, cnstrs, cnstr, a0, hmm, hp, hcn, ha0, heq⟩ := IH2 cond hm1
            exact ⟨pn, ptr, cnstrs, cnstr, a0, List.mem_cons_of_mem _ hmm, hp, hcn, ha0, heq⟩

def ptrC2 : Pointer := ⟨1, "n", .one, 7, none⟩

/-- The C2 witness constraint: an exclusive constraint over the
transformation `__subject__ + 1` of the raw value. -/
def cnC2 : Constraint :=
  .mk 20 true false false true [] (.ptrS ptrC2) (some (.binOp "+" .subjRef (.lit 1)))

/-- The condition the C2 witness run emits. -/
def c2cond : QlExpr :=
  .binOp "=" (.binOp "+" (.lit 4) (.lit 1)) (.binOp "+" (.ppath "n") (.lit 1))

theorem C2_pointer_predicates_witness :
    buildPtrConds [("n", QlExpr.lit 4)] ["n"] [("n", ptrC2, [cnC2])] = .ok [c2cond] ∧
    specPtrPredicate (subject_paths_substitute (QlExpr.lit 4) [("n", QlExpr.lit 4)])
      (.ppath ("n")) ptrC2.card.isSingle cnC2.subjectexpr ∈ [c2cond] := by
  refine ⟨rfl, ?_⟩
  have h := C2_pointer_predicates [("n", QlExpr.lit 4)] ["n"] [("n", ptrC2, [cnC2])] rfl
  obtain ⟨a0, ha0, hmem⟩ := h.1 ("n") ptrC2 [cnC2] cnC2 (by simp) (by simp) (by simp)
  have ha : QlExpr.lit 4 = a0 := by
    simpa [alookup] using ha0
  rw [← ha] at hmem
  exact hmem

theorem buildObjConds_length (anchors : List (String × QlExpr)) (subjP : QlExpr) :
    ∀ (l : List Constraint) {ds : List QlExpr},
    buildObjConds anchors subjP l = .ok ds → ds.length = l.length := by
  intro l
  induction l with
  | nil =>
    intro ds h
    simp only [buildObjConds, Except.ok.injEq] at h
    subst h
    rfl
  | cons c rest ih =>
    intro ds h
    simp only [buildObjConds] at h
    split at h
    · simp at h
    · rename_i d hd
      split at h
      · simp at h
      · rename_i ds' hds
        simp only [Except.ok.injEq] at h
        subst h
        simp [ih hds]

/-- C10: in every synthesized per-type conflict select, a pointer-level
constraint contributes predicates only when its pointer is present
(anchored from the shape, an override set, or a computed-pointer
expression): entries whose pointer is not in the `present_ptrs`
snapshot contribute nothing, entries whose pointer is present
contribute exactly one predicate per constraint; every object-level
constraint contributes exactly one predicate; and every needed pointer
absent from the snapshot carries an empty-set anchor (used when object
subject expressions are substituted). -/
theorem C10_pointer_skip_object_always (env : Env) (stmt : MutStmt) (t : Nat)
    (fi : Bool) (fake : Option QlExpr) (oc : List Constraint) (cs : PtrConstraintMap)
    {needed present : List String} {anchors : List (String × QlExpr)}
    (hres : resolveAnchors env stmt t fi fake oc cs = .ok (some (needed, present, anchors))) :
    (∀ entry : String × Pointer × List Constraint, entry.1 ∉ present →
      ptrCondsOne anchors present entry = .ok []) ∧
    (∀ pn ptr cnstrs out, pn ∈ present →
      ptrCondsOne anchors present (pn, ptr, cnstrs) = .ok out →
      out.length = cnstrs.length) ∧
    (∀ subjP ds, buildObjConds anchors subjP oc = .ok ds → ds.length = oc.length) ∧
    (∀ p ∈ needed, p ∉ present →
      ∃ ptr, env.schema.getptr t p = some ptr ∧
        alookup anchors p = some (QlExpr.emptyCast ptr.target)) := by
  obtain ⟨needed0, anchors0, anchors1, anchors2, inShape, hn, hc, hf, hs, hguard, hfill, hpres⟩ :=
    resolveAnchors_inv env stmt t fi fake oc cs hres
  refine ⟨?_, ?_, ?_, ?_⟩
  · intro entry hnp
    simp [ptrCondsOne, hnp]
  · intro pn ptr cnstrs out hp hone
    rcases ptrCondsOne_ok anchors present (pn, ptr, cnstrs) hone with ⟨hnp, _⟩ | ⟨_, a0, _, hout⟩
    · exact absurd hp hnp
    · rw [hout]
      exact List.length_map _ _
  · intro subjP ds hds
    exact buildObjConds_length anchors subjP oc hds
  · intro p hpn hnp
    have h2 : alookup anchors2 p = none := by
      rw [alookup_none_iff]
      rw [hpres] at hnp
      exact hnp
    have hfill' : fillFold env.schema t
        (needed.filter (fun q => (alookup anchors2 q).isNone)) anchors2 = .ok anchors := hfill
    obtain ⟨_, F2⟩ := fillFold_lookup env.schema t _ anchors2 anchors hfill'
    refine F2 p ?_ h2
    rw [List.mem_filter]
    refine ⟨hpn, ?_⟩
    rw [h2]
    rfl

theorem fragLoop_spec (env : Env) (stmt : MutStmt) (subjT : Nat) (fi : Bool)
    (fake : Option QlExpr) :
    ∀ (tms : ConflictTypeMap) {frags : List QlExpr} {fp : Bool},
    fragLoop env stmt subjT fi fake tms = .ok (frags, fp) →
    (fp = true ↔ ∃ pr ∈ tms, pr.1 ≠ subjT ∧
      ∃ fexp, _compile_conflict_select env stmt pr.1 fi fake pr.2.2 pr.2.1 =
        .ok (some fexp)) := by
  intro tms
  induction tms with
  | nil =>
    intro frags fp h
    simp only [fragLoop, Except.ok.injEq, Prod.mk.injEq] at h
    obtain ⟨_, h2⟩ := h
    subst h2
    simp
  | cons hd rest ih =>
    intro frags fp h
    obtain ⟨a, pair⟩ := hd
    simp only [fragLoop] at h
    split at h
    · simp at h
    · rename_i hfrag
      rw [ih h]
      constructor
      · rintro ⟨pr, hm, hne, hex⟩
        exact ⟨pr, List.mem_cons_of_mem _ hm, hne, hex⟩
      · rintro ⟨pr, hm, hne, hex⟩
        rcases List.mem_cons.1 hm with hh | hh
        · exfalso
          obtain ⟨fexp, hfe⟩ := hex
          rw [hh, hfrag] at hfe
          simp at hfe
        · exact ⟨pr, hh, hne, hex⟩
    · rename_i f0 hfrag
      split at h
      · simp at h
      · rename_i frags' fp' hrest
        simp only [Except.ok.injEq, Prod.mk.injEq] at h
        obtain ⟨_, h2⟩ := h
        subst h2
        rw [Bool.or_eq_true, bne_iff_ne, ih hrest]
        constructor
        · rintro (hne | ⟨pr, hm, hne, hex⟩)
          · exact ⟨(a, pair), List.mem_cons_self _ _, hne, f0, hfrag⟩
          · exact ⟨pr, List.mem_cons_of_mem _ hm, hne, hex⟩
        · rintro ⟨pr, hm, hne, hex⟩
          rcases List.mem_cons.1 hm with hh | hh
          · subst hh
            exact Or.inl hne
          · exact Or.inr ⟨pr, hh, hne, hex⟩

/-- C3: `compile_conflict_select` returns `always_check = true` if and
only if at least one sub-select came from a declaring type other than
the subject type (some entry of the partition keyed by another type
yielded a fragment), or the subject type has at least one concrete
(non-view) child.  In particular, a subject type with a non-view
concrete child gets `always_check = true` even when no ancestor
contributed a sub-select. -/
theorem C3_always_check_iff (env : Env) (stmt : MutStmt) (subjT : Nat) (fi : Bool)
    (fake : Option QlExpr) (oc : List Constraint) (cs : PtrConstraintMap)
    {tms : ConflictTypeMap} {ir : IrSet} {ac fp : Bool}
    (htm : conflictTypeMaps subjT fi oc cs = .ok tms)
    (h : compile_conflict_select env stmt subjT fi fake oc cs = .ok (ir, ac, fp)) :
    ac = true ↔
      ((∃ pr ∈ tms, pr.1 ≠ subjT ∧
        ∃ fexp, _compile_conflict_select env stmt pr.1 fi fake pr.2.2 pr.2.1 =
          .ok (some fexp)) ∨
      ∃ c ∈ env.schema.children subjT, env.schema.isView c = false) := by
  simp only [compile_conflict_select, htm] at h
  split at h
  · simp at h
  · rename_i frags fp0 hfl
    simp only [Except.ok.injEq, Prod.mk.injEq] at h
    obtain ⟨h1, h2, h3⟩ := h
    subst h2
    rw [Bool.or_eq_true, fragLoop_spec env stmt subjT fi fake _ hfl, List.any_eq_true]
    simp only [Bool.not_eq_true']

def sch3 : Schema :=
  ⟨[⟨1, "T3", false, [], [], [2], [2]⟩, ⟨2, "U3", false, [], [], [], []⟩],
    fun _ => [], fun p => p, fun t => t, fun _ _ => [], 0⟩

/-- The C3 witness: subject type 1 has the non-view concrete child 2
and no constraints at all, so no sub-select exists, yet
`always_check` is true. -/
def env3 : Env := ⟨sch3, fun _ => false, []⟩

def stmt3 : MutStmt := ⟨false, [], 1, 1⟩

theorem C3_always_check_iff_witness :
    (true = true ↔
      ((∃ pr ∈ ([] : ConflictTypeMap), pr.1 ≠ 1 ∧
        ∃ fexp, _compile_conflict_select env3 stmt3 pr.1 false none pr.2.2 pr.2.1 =
          .ok (some fexp)) ∨
      ∃ c ∈ env3.schema.children 1, env3.schema.isView c = false)) :=
  @C3_always_check_iff env3 stmt3 1 false none [] [] [] IrSet.emptySet true false rfl rfl

/-- C8 (amended): in `compile_insert_unless_conflict_on` an ELSE branch
is rejected with the unsupported-feature error exactly when the
synthesized conflict select drew a sub-select from a declaring type
other than the subject type (`from_anc`); when the branch is accepted
the statement's subject path is added to the path-factoring allowlist
(the returned flag) and the branch is compiled into the clause.  The
claim as frozen demands rejection whenever the matched constraint's
owning type differs from the subject type; when the ancestor-level
constraint contributes no sub-select — e.g. its pointer is absent from
the statement's shape — `from_anc` stays false and the ELSE branch is
accepted even though the constraint is owned by a parent type (see the
counterexample). -/
theorem C8_else_rejected_iff_from_anc (env : Env) (stmt : MutStmt) (typ : Nat)
    (cspec : List Pointer) (oc : List Constraint) (eb : QlExpr)
    {ptrs : List Pointer} {cn : Constraint} {ir : IrSet} {ac fromAnc : Bool}
    (hp : resolvePtrs env cspec = .ok ptrs)
    (hone : oc ++ fieldConstrsOf env ptrs = [cn])
    (hsel : compile_conflict_select env stmt typ false none oc
      (dsOf ptrs (fieldConstrsOf env ptrs)) = .ok (ir, ac, fromAnc)) :
    (fromAnc = true →
      compile_insert_unless_conflict_on env stmt typ cspec oc (some eb) =
        .error (.unsupported
          "UNLESS CONFLICT can not use ELSE when constraint is from a parent type")) ∧
    (fromAnc = false →
      compile_insert_unless_conflict_on env stmt typ cspec oc (some eb) =
        .ok (⟨some cn.cid, ir, ac, some eb, none, none⟩, true)) := by
  constructor
  · intro hfa
    subst hfa
    simp [compile_insert_unless_conflict_on, hp, hone, hsel]
  · intro hfa
    subst hfa
    simp [compile_insert_unless_conflict_on, hp, hone, hsel]

/-- The C8 schema: pointer `n` is declared on the parent type `S`
(tid 5) and carries the exclusive constraint `c8anc`, owned there; the
subject type `T` (tid 6) inherits the pointer, whose nearest
non-derived parent is `S`'s pointer. -/
def n5p : Pointer := ⟨5, "n", .one, 9, none⟩

def nT8 : Pointer := ⟨6, "n", .one, 9, none⟩

def c8anc : Constraint := .mk 200 true false false true [] (.ptrS n5p) none

def sch8 : Schema :=
  ⟨[⟨5, "S", false, [n5p], [], [6], [6]⟩, ⟨6, "T", false, [nT8], [], [], []⟩],
    fun p => if p.source == 5 && p.pname == "n" then [c8anc] else [],
    fun p => if p.source == 6 && p.pname == "n" then n5p else p,
    fun t => t, fun _ _ => [], 0⟩

def env8 : Env := ⟨sch8, fun _ => false, []⟩

/-- The C8 counterexample statement: its shape does not mention the
constrained pointer `n`. -/
def stmt8 : MutStmt := ⟨false, [("z", .lit 3)], 6, 1⟩

/-- The C8 witness statement: its shape does supply `n`, so the
ancestor bucket yields a sub-select and `from_anc` is true. -/
def stmt8b : MutStmt := ⟨false, [("n", .lit 3)], 6, 1⟩

/-- The sub-select the C8 witness run derives from the parent type. -/
def sel8b : QlExpr :=
  .detachedSelect (.objPath "S")
    (.binOp "=" (QlExpr.anchorRef ("n") (.lit 3)) (.ppath ("n")))

/-- C8 counterexample: the single matched constraint `c8anc` is owned
by the parent type `S` (tid 5), not by the subject type `T` (tid 6), so
the claim demands that the ELSE branch be rejected.  The code accepts
it: the shape does not mention `n`, the sub-select for the ancestor
bucket collapses to nothing, `from_anc` stays false, and compilation
returns the clause with the ELSE branch compiled and the subject path
added to the factoring allowlist. -/
theorem C8_counterexample :
    compile_insert_unless_conflict_on env8 stmt8 6 [nT8] [] (some (.lit 99)) =
      .ok (⟨some 200, .emptySet, false, some (.lit 99), none, none⟩, true) ∧
    fieldConstrsOf env8 [n5p] = [c8anc] ∧
    c8anc.owned = true ∧
    c8anc.subject = CSubject.ptrS n5p ∧
    n5p.source = 5 ∧
    (5 : Nat) ≠ 6 :=
  ⟨rfl, rfl, rfl, rfl, rfl, by decide⟩

theorem C8_else_rejected_iff_from_anc_witness :
    compile_insert_unless_conflict_on env8 stmt8b 6 [nT8] [] (some (.lit 99)) =
      .error (.unsupported
        "UNLESS CONFLICT can not use ELSE when constraint is from a parent type") := by
  have h := @C8_else_rejected_iff_from_anc env8 stmt8b 6 [nT8] [] (.lit 99)
    [n5p] c8anc (.scopedSet [sel8b]) true true rfl rfl rfl
  exact h.1 rfl

/-- The C9 schema: sibling concrete types `A` (tid 2) and `B` (tid 3)
under the common ancestor `C` (tid 1), itself under the universal base
(tid 0).  `C` owns the object-level exclusivity constraint `ocC9` over
`__subject__.n`; the nearest-common-ancestor accessor returns `C` for
the (B, A) pair and the universal base otherwise. -/
def nPtrC9 : Pointer := ⟨1, "n", .one, 42, none⟩

def ocC9 : Constraint := .mk 100 true false false true [] (.objS 1) (some (.subjPath "n"))

def sch9 : Schema :=
  ⟨[⟨0, "BaseObject", false, [], [], [1], [1, 2, 3]⟩,
    ⟨1, "C", false, [nPtrC9], [ocC9], [2, 3], [2, 3]⟩,
    ⟨2, "A", false, [], [], [], []⟩,
    ⟨3, "B", false, [], [], [], []⟩],
    fun _ => [], fun p => p, fun t => t,
    fun a b => if a = 3 ∧ b = 2 then [1] else [0], 0⟩

def insA9 : MutStmt := ⟨false, [("n", .lit 1)], 2, 10⟩

def insB9 : MutStmt := ⟨false, [("n", .lit 2)], 3, 11⟩

/-- The compilation context before the first insert is compiled: no
mutation statements recorded yet. -/
def env9a : Env := ⟨sch9, fun _ => false, []⟩

/-- The compilation context when the second insert is compiled: the
first insert has been appended to `dml_stmts`. -/
def env9b : Env := ⟨sch9, fun _ => false, [insA9]⟩

/-- The single conflict select of the C9 scenario. -/
def sel9 : QlExpr :=
  .detachedSelect (.objPath "C")
    (.binOp "=" (QlExpr.anchorRef ("n") (.lit 2)) (.pstep (.objPath "C") ("n")))

/-- C9: for sibling types `A` and `B` inheriting an object-level
exclusivity constraint from the common ancestor `C` (not the universal
base), compiling an insert into `A` followed by an insert into `B` in
the same query produces exactly one cross-statement inheritance clause
referencing `C`'s constraint, not two: the first
`compile_inheritance_conflict_checks` call sees an empty statement list
and yields nothing; the second call records the single (B, C,
first-statement) ancestor triple and emits one `OnConflictClause` per
mattering constraint on `C` — here exactly one, tagged with `ocC9`'s
id, `always_check = false`, and the first statement as the failure
target. -/
theorem C9_single_inheritance_clause :
    compile_inheritance_conflict_checks env9a insA9 2 = .ok none ∧
    compile_inheritance_conflict_checks env9b insB9 3 =
      .ok (some [⟨some 100, .scopedSet [sel9], false, none, some 10, none⟩]) ∧
    ocC9.cid = 100 ∧
    insA9.sid = 10 :=
  ⟨rfl, rfl, rfl, rfl⟩

theorem C10_pointer_skip_object_always_witness :
    resolveAnchors env5 stmt5 1 true none [oc5] [] =
      .ok (some (["n"], [], [("n", QlExpr.emptyCast 7)])) ∧
    ptrCondsOne [("n", QlExpr.emptyCast 7)] [] ("n", ptrN5, [oc5]) = .ok [] := by
  refine ⟨rfl, ?_⟩
  have h := @C10_pointer_skip_object_always env5 stmt5 1 true none [oc5] []
    (["n"]) ([]) ([("n", QlExpr.emptyCast 7)]) rfl
  exact h.1 ("n", ptrN5, [oc5]) (by simp)
